import Mathlib

/-!
Verification of the mafia game session engine (gameManager / gameFlow /
intentHandler) against its natural-language specification.

The embedding translates the TypeScript source faithfully:
* the JS `Map<string, Player>` roster (insertion-ordered, keyed by inboxId,
  where each stored `Player` carries its own key in `inboxId`) is a
  `List Player` in insertion order; `Map.get` is `List.find?` on `inboxId`,
  `Map.set` of a fresh key is append, `Map.delete` is a filter on the key,
  and in-place mutation of a looked-up player object is `Game.setPlayer`;
* wall-clock `Date.now()` values are `Nat` parameters threaded explicitly;
* the `Math.random()` draws are explicit parameters: the impostor pick is an
  index argument to `assignRoles`, the kill Bernoulli trial is a `Bool`
  argument to `attemptKill`;
* the asynchronous messaging collaborator (group membership, DMs, button
  sending) performs no game-state mutation, so only the state-mutating cores
  of the orchestrator functions are embedded (`startVotingPhaseReset`,
  the phase-timeout callbacks, the intent-handler vote mutation);
* the address-shaped target resolution in `attemptKill` consults the
  messaging collaborator for a member inboxId; that external answer is the
  `addrMatch : Option String` parameter.
-/

namespace MafiaGame

/-- Modelled from the spec: the `GameState` enum lives in `types.ts`, which is
not among the provided sources; its variants are fixed by spec section 4.1 and
by every use site in the provided code. -/
inductive GameState where
  | IDLE
  | LOBBY_CREATED
  | WAITING_FOR_PLAYERS
  | ASSIGN_ROLES
  | ROUND_1_TASKS
  | ROUND_1_KILL
  | ROUND_1_DISCUSSION
  | ROUND_1_VOTING
  | ROUND_2_TASKS
  | ROUND_2_KILL
  | ROUND_2_DISCUSSION
  | ROUND_2_VOTING
  | ROUND_3_TASKS
  | ROUND_3_KILL
  | ROUND_3_DISCUSSION
  | ROUND_3_VOTING
  | GAME_END
  deriving DecidableEq, Repr

/-- Modelled from the spec: the `Role` enum lives in `types.ts` (not among the
sources); spec section 3 fixes the two assigned variants (adversary/ally,
`IMPOSTOR`/`CREW` in the code), with "unassigned" embedded as `Option.none`. -/
inductive Role where
  | IMPOSTOR
  | CREW
  deriving DecidableEq, Repr

/-- Modelled from the spec: `MAX_PLAYERS` comes from `config/gameConfig.ts`
(not among the sources); spec section 6 fixes it to 6, and
`canStartGame` hardcodes the literal 6 for fullness. -/
def MAX_PLAYERS : Nat := 6

/-- Modelled from the spec: `MAX_ROUNDS` comes from `config/gameConfig.ts`
(not among the sources); spec section 6 fixes it to 3, matching the
three per-round state families. -/
def MAX_ROUNDS : Nat := 3

/-- Modelled from the spec: `MIN_PLAYERS_TO_START` comes from
`config/gameConfig.ts` (not among the sources); the spec gives no numeric
value, but its section 8 scenario starts a session with 4 joined players,
so 4 is used here. No claim depends on the exact value. -/
def MIN_PLAYERS_TO_START : Nat := 4

/-- A task as held in `taskAssignments`: question, expected answer material,
and the `completed` flag. Answer validation is an external collaborator
(`tasks.ts`), passed as a function argument where needed. -/
structure Task where
  question : String
  answer : String
  completed : Bool
  deriving DecidableEq, Repr

/-- The `Player` record of `types.ts`, fields as used throughout the code. -/
structure Player where
  inboxId : String
  username : String
  role : Option Role
  isAlive : Bool
  completedTasks : Nat
  killAttempts : Nat
  lastKillAttempt : Option Nat
  voted : Bool
  voteTarget : Option String
  deriving DecidableEq, Repr

/-- The `VoteResult` record: a vote target and its tallied count. -/
structure VoteResult where
  target : String
  votes : Nat
  deriving DecidableEq, Repr

/-- The `Game` record (session state). `players` is the insertion-ordered
roster; `eliminatedPlayers` is the elimination set in insertion order;
`taskAssignments` is the inboxId-keyed task map. The float tunable
`killSuccessChance` is not stored: the Bernoulli draw it parameterizes is an
explicit `Bool` argument to `attemptKill`. -/
structure Game where
  state : GameState
  players : List Player
  round : Nat
  joinDeadline : Option Nat
  impostorInboxId : Option String
  eliminatedPlayers : List String
  killCooldown : Nat
  maxKillAttempts : Nat
  taskAssignments : List (String × Task)
  deriving DecidableEq, Repr

/-- Roster lookup, `this.game.players.get(inboxId)`: the JS map is keyed by
`inboxId` and every stored player carries its key, so lookup is `find?`. -/
def Game.getPlayer (g : Game) (inboxId : String) : Option Player :=
  g.players.find? (fun p => p.inboxId == inboxId)

/-- In-place mutation of a looked-up player object: the roster entry whose
key matches the player's `inboxId` is replaced by the updated record. -/
def Game.setPlayer (g : Game) (p : Player) : Game :=
  { g with players := g.players.map (fun q => if q.inboxId == p.inboxId then p else q) }

/-- The `getAlivePlayers` accessor. -/
def Game.getAlivePlayers (g : Game) : List Player :=
  g.players.filter (fun p => p.isAlive)

/-- Task-phase membership test, as repeated at each use site in the code. -/
def isTaskPhase (s : GameState) : Bool :=
  s == GameState.ROUND_1_TASKS || s == GameState.ROUND_2_TASKS ||
    s == GameState.ROUND_3_TASKS

/-- Kill-phase membership test, as repeated at each use site in the code. -/
def isKillPhase (s : GameState) : Bool :=
  s == GameState.ROUND_1_KILL || s == GameState.ROUND_2_KILL ||
    s == GameState.ROUND_3_KILL

/-- Voting-phase membership test, as repeated at each use site in the code. -/
def isVotingPhase (s : GameState) : Bool :=
  s == GameState.ROUND_1_VOTING || s == GameState.ROUND_2_VOTING ||
    s == GameState.ROUND_3_VOTING

/-- Model of the JS `toLowerCase()` used for case-insensitive id/username
comparison: character-wise lowercasing of the string's characters. -/
def strLower (s : String) : String := String.mk (s.data.map Char.toLower)

/-- Set insertion for the JS `Set<string>` of eliminated players. -/
def insertElim (s : List String) (x : String) : List String :=
  if s.contains x then s else s ++ [x]

/-- Key-preserving update/insert for the JS `Map<string, Task>`. -/
def setAssoc (m : List (String × Task)) (k : String) (v : Task) :
    List (String × Task) :=
  if (m.find? (fun kv => kv.1 == k)).isSome then
    m.map (fun kv => if kv.1 == k then (k, v) else kv)
  else m ++ [(k, v)]

/-- Result of `addPlayer`. -/
structure AddPlayerResult where
  success : Bool
  removedPlayer : Option Player
  deriving DecidableEq, Repr

/-- The eviction scan of `addPlayer` lines 116-126: walk the roster entries
from the most recently added backwards and return the first whose key does
not match the hosting agent's inboxId (case-insensitively). -/
def lastNonAgent (players : List Player) (agentInboxId : String) : Option Player :=
  players.reverse.find? (fun p => !(strLower p.inboxId == strLower agentInboxId))

/-- `addPlayer` (gameManager lines 92-177), state-mutating core. Group
membership calls are messaging-collaborator effects and change no game
state. `agentInboxId` is `this.agent.client.inboxId`, `now` is `Date.now()`. -/
def addPlayer (g : Game) (agentInboxId : String) (now : Nat)
    (inboxId username : String) : Game × AddPlayerResult :=
  if ¬(g.state = GameState.LOBBY_CREATED ∨ g.state = GameState.WAITING_FOR_PLAYERS) then
    (g, ⟨false, none⟩)
  else if (g.getPlayer inboxId).isSome then
    (g, ⟨false, none⟩)
  else if (match g.joinDeadline with | some d => decide (now > d) | none => false) = true then
    (g, ⟨false, none⟩)
  else
    let evicted : Game × Option Player :=
      if g.players.length ≥ MAX_PLAYERS then
        match lastNonAgent g.players agentInboxId with
        | some lastPlayer =>
            ({ g with players :=
                g.players.filter (fun p => ¬(p.inboxId == lastPlayer.inboxId)) },
             some lastPlayer)
        | none => (g, none)
      else (g, none)
    let g1 := evicted.1
    let newPlayer : Player :=
      { inboxId := inboxId, username := username, role := none, isAlive := true,
        completedTasks := 0, killAttempts := 0, lastKillAttempt := none,
        voted := false, voteTarget := none }
    ({ g1 with players := g1.players ++ [newPlayer],
               state := GameState.WAITING_FOR_PLAYERS },
     ⟨true, evicted.2⟩)

/-- `canStartGame` (gameManager lines 179-189). -/
def canStartGame (g : Game) (now : Nat) : Bool :=
  let deadlinePassed := match g.joinDeadline with | some d => decide (now > d) | none => false
  let isFull := decide (g.players.length ≥ 6)
  g.state == GameState.WAITING_FOR_PLAYERS && (deadlinePassed || isFull) &&
    decide (g.players.length ≥ MIN_PLAYERS_TO_START)

/-- `assignRoles` (gameManager lines 191-216). The uniform random impostor
index `Math.floor(Math.random() * playerArray.length)` is the explicit
argument `i`; `none` models the thrown state error, and an out-of-range `i`
(impossible for the real draw) also yields `none`. Role DMs are
messaging-collaborator effects. -/
def assignRoles (g : Game) (now : Nat) (i : Nat) : Option Game :=
  if ¬(g.state = GameState.WAITING_FOR_PLAYERS ∧ canStartGame g now = true) then
    none
  else
    match g.players.get? i with
    | none => none
    | some impostor =>
        let withImp := g.players.set i { impostor with role := some Role.IMPOSTOR }
        let players' := withImp.map (fun p =>
          if ¬(p.inboxId = impostor.inboxId) then { p with role := some Role.CREW } else p)
        some { g with players := players',
                      impostorInboxId := some impostor.inboxId,
                      state := GameState.ASSIGN_ROLES }

/-- `getStateForRoundPhase` (gameManager lines 272-298); the phase tag is
inlined as four explicit functions would be, using a small sum type. -/
inductive PhaseTag where
  | TASKS
  | KILL
  | DISCUSSION
  | VOTING
  deriving DecidableEq, Repr

/-- The round/phase-to-state table, defaulting to `IDLE` off the table. -/
def getStateForRoundPhase (round : Nat) (phase : PhaseTag) : GameState :=
  match round, phase with
  | 1, PhaseTag.TASKS => GameState.ROUND_1_TASKS
  | 1, PhaseTag.KILL => GameState.ROUND_1_KILL
  | 1, PhaseTag.DISCUSSION => GameState.ROUND_1_DISCUSSION
  | 1, PhaseTag.VOTING => GameState.ROUND_1_VOTING
  | 2, PhaseTag.TASKS => GameState.ROUND_2_TASKS
  | 2, PhaseTag.KILL => GameState.ROUND_2_KILL
  | 2, PhaseTag.DISCUSSION => GameState.ROUND_2_DISCUSSION
  | 2, PhaseTag.VOTING => GameState.ROUND_2_VOTING
  | 3, PhaseTag.TASKS => GameState.ROUND_3_TASKS
  | 3, PhaseTag.KILL => GameState.ROUND_3_KILL
  | 3, PhaseTag.DISCUSSION => GameState.ROUND_3_DISCUSSION
  | 3, PhaseTag.VOTING => GameState.ROUND_3_VOTING
  | _, _ => GameState.IDLE

/-- The per-player reset applied by `startRound` to living players. -/
def resetForRound (p : Player) : Player :=
  { p with killAttempts := 0, lastKillAttempt := none, voted := false,
           voteTarget := none }

/-- `startRound` (gameManager lines 248-270). The external `generateTask()`
collaborator is the argument `genTask` (fed the player's inboxId so distinct
fresh tasks can be modelled); `none` models the thrown range error. -/
def startRound (g : Game) (genTask : String → Task) (round : Nat) : Option Game :=
  if round < 1 ∨ round > MAX_ROUNDS then none
  else
    some { g with
      round := round,
      state := getStateForRoundPhase round PhaseTag.TASKS,
      players := g.players.map (fun p => if p.isAlive then resetForRound p else p),
      taskAssignments := g.players.foldl
        (fun m p => if p.isAlive then setAssoc m p.inboxId (genTask p.inboxId) else m)
        g.taskAssignments }

/-- `completeTask` (gameManager lines 300-336). The external
`validateTaskAnswer` collaborator is the argument `validate`. -/
def completeTask (g : Game) (validate : Task → String → Bool)
    (inboxId answer : String) : Game × Bool :=
  match g.getPlayer inboxId with
  | none => (g, false)
  | some player =>
    if ¬(player.isAlive = true) then (g, false)
    else if player.role = some Role.IMPOSTOR then (g, false)
    else if ¬(isTaskPhase g.state = true) then (g, false)
    else
      match g.taskAssignments.find? (fun kv => kv.1 == inboxId) with
      | none => (g, false)
      | some kv =>
        if kv.2.completed then (g, false)
        else if validate kv.2 (answer.trim) then
          (({ g with taskAssignments :=
                setAssoc g.taskAssignments inboxId { kv.2 with completed := true }
            }).setPlayer { player with completedTasks := player.completedTasks + 1 },
           true)
        else (g, false)

/-- Outcome tags for `attemptKill`, one per returned message. -/
inductive KillOutcome where
  | notImpostor
  | notKillPhase
  | targetNotFound
  | selfKill
  | onCooldown (remainingSeconds : Nat)
  | maxAttempts
  | killSuccess
  | killFailed
  deriving DecidableEq, Repr

/-- Target resolution of `attemptKill` lines 363-398: when the identifier is
address-shaped the messaging collaborator may supply the matching member's
inboxId (`addrMatch`), against which a living player is looked up
case-insensitively; otherwise, and as fallback, a living player is looked up
by case-insensitive username. -/
def resolveKillTarget (g : Game) (targetIdentifier : String)
    (addrMatch : Option String) : Option Player :=
  let byAddr : Option Player :=
    match addrMatch with
    | some memberId =>
        g.players.find? (fun p =>
          strLower p.inboxId == strLower memberId && p.isAlive)
    | none => none
  match byAddr with
  | some t => some t
  | none =>
      g.players.find? (fun p =>
        strLower p.username == strLower targetIdentifier && p.isAlive)

/-- `attemptKill` (gameManager lines 338-457). `now` is `Date.now()`, `roll`
is the Bernoulli draw `Math.random() < killSuccessChance`, and `addrMatch`
is the messaging collaborator's answer for address-shaped identifiers. -/
def attemptKill (g : Game) (impostorInboxId targetIdentifier : String)
    (addrMatch : Option String) (now : Nat) (roll : Bool) : Game × KillOutcome :=
  match g.getPlayer impostorInboxId with
  | none => (g, KillOutcome.notImpostor)
  | some impostor =>
    if ¬(impostor.isAlive = true ∧ impostor.role = some Role.IMPOSTOR) then
      (g, KillOutcome.notImpostor)
    else if ¬(isKillPhase g.state = true) then
      (g, KillOutcome.notKillPhase)
    else
      match resolveKillTarget g targetIdentifier addrMatch with
      | none => (g, KillOutcome.targetNotFound)
      | some target =>
        if target.inboxId = impostorInboxId then
          (g, KillOutcome.selfKill)
        else if (match impostor.lastKillAttempt with
                 | some last => decide (now - last < g.killCooldown)
                 | none => false) then
          (g, KillOutcome.onCooldown
                ((g.killCooldown - (now - impostor.lastKillAttempt.getD 0) + 999) / 1000))
        else if impostor.killAttempts ≥ g.maxKillAttempts then
          (g, KillOutcome.maxAttempts)
        else
          let g1 := g.setPlayer
            { impostor with killAttempts := impostor.killAttempts + 1,
                            lastKillAttempt := some now }
          if roll then
            let g2 := (g1.setPlayer { target with isAlive := false })
            ({ g2 with eliminatedPlayers := insertElim g2.eliminatedPlayers target.inboxId },
             KillOutcome.killSuccess)
          else
            (g1, KillOutcome.killFailed)

/-- `castVote` (gameManager lines 459-490). Note the target lookup matches
any registered username with no liveness test on the target. -/
def castVote (g : Game) (voterInboxId targetUsername : String) : Game × Bool :=
  match g.getPlayer voterInboxId with
  | none => (g, false)
  | some voter =>
    if ¬(voter.isAlive = true) then (g, false)
    else if ¬(isVotingPhase g.state = true) then (g, false)
    else if voter.voted then (g, false)
    else
      match g.players.find? (fun p => strLower p.username == strLower targetUsername) with
      | none => (g, false)
      | some target =>
        (g.setPlayer { voter with voted := true, voteTarget := some target.inboxId },
         true)

/-- The vote-count accumulation of `getVoteResults` lines 495-500: bump the
count under a target key, inserting it (at the end, in JS map insertion
order) when first seen. -/
def bumpCount (m : List (String × Nat)) (k : String) : List (String × Nat) :=
  if (m.find? (fun kv => kv.1 == k)).isSome then
    m.map (fun kv => if kv.1 == k then (kv.1, kv.2 + 1) else kv)
  else m ++ [(k, 1)]

/-- The vote-count map of `getVoteResults`: one count per target, summed over
living voters who voted, in first-vote order. -/
def tallyVotes (players : List Player) : List (String × Nat) :=
  players.foldl (fun m p =>
    if p.isAlive && p.voted then
      match p.voteTarget with
      | some t => bumpCount m t
      | none => m
    else m) []

/-- The descending-votes comparator of `getVoteResults` line 507
(`(a, b) => b.votes - a.votes`, stable). -/
def voteOrder (a b : VoteResult) : Prop := b.votes ≤ a.votes

instance : DecidableRel voteOrder := fun a b => Nat.decLe b.votes a.votes

instance : IsTotal VoteResult voteOrder :=
  ⟨fun a b => Nat.le_total b.votes a.votes⟩

instance : IsTrans VoteResult voteOrder :=
  ⟨fun _ _ _ hab hbc => Nat.le_trans hbc hab⟩

/-- `getVoteResults` (gameManager lines 492-508): tally, then stable sort by
descending vote count (insertion sort matches the stable JS sort). -/
def getVoteResults (g : Game) : List VoteResult :=
  List.insertionSort voteOrder
    ((tallyVotes g.players).map (fun kv => { target := kv.1, votes := kv.2 }))

/-- `eliminatePlayer` (gameManager lines 510-518). -/
def eliminatePlayer (g : Game) (inboxId : String) : Game :=
  match g.getPlayer inboxId with
  | none => g
  | some p =>
    let g1 := g.setPlayer { p with isAlive := false }
    { g1 with eliminatedPlayers := insertElim g1.eliminatedPlayers inboxId }

/-- Winner tags of `checkWinCondition`. -/
inductive Winner where
  | CREW
  | IMPOSTOR
  deriving DecidableEq, Repr

/-- `checkWinCondition` (gameManager lines 520-541): the returned pair is
(`gameEnded`, `winner`). -/
def checkWinCondition (g : Game) : Bool × Option Winner :=
  match g.getPlayer (g.impostorInboxId.getD "") with
  | none => (true, some Winner.CREW)
  | some impostor =>
    if ¬(impostor.isAlive = true) then (true, some Winner.CREW)
    else if g.round = MAX_ROUNDS ∧
            (g.state = GameState.ROUND_3_VOTING ∨ g.state = GameState.GAME_END) ∧
            impostor.isAlive = true then
      (true, some Winner.IMPOSTOR)
    else (false, none)

/-- `advancePhase` (gameManager lines 543-578). A voting state rolls into
`startRound` of the next round (always in range, so `getD` never fires). -/
def advancePhase (g : Game) (genTask : String → Task) : Game :=
  match g.state with
  | GameState.ROUND_1_TASKS => { g with state := GameState.ROUND_1_KILL }
  | GameState.ROUND_2_TASKS => { g with state := GameState.ROUND_2_KILL }
  | GameState.ROUND_3_TASKS => { g with state := GameState.ROUND_3_KILL }
  | GameState.ROUND_1_KILL => { g with state := GameState.ROUND_1_DISCUSSION }
  | GameState.ROUND_2_KILL => { g with state := GameState.ROUND_2_DISCUSSION }
  | GameState.ROUND_3_KILL => { g with state := GameState.ROUND_3_DISCUSSION }
  | GameState.ROUND_1_DISCUSSION => { g with state := GameState.ROUND_1_VOTING }
  | GameState.ROUND_2_DISCUSSION => { g with state := GameState.ROUND_2_VOTING }
  | GameState.ROUND_3_DISCUSSION => { g with state := GameState.ROUND_3_VOTING }
  | GameState.ROUND_1_VOTING => (startRound g genTask 2).getD g
  | GameState.ROUND_2_VOTING => (startRound g genTask 3).getD g
  | GameState.ROUND_3_VOTING => { g with state := GameState.GAME_END }
  | _ => g

/-- The vote reset performed on entry to the voting phase
(`startVotingPhase`, gameFlow lines 862-865): every living player's `voted`
and `voteTarget` are cleared. -/
def startVotingPhaseReset (g : Game) : Game :=
  { g with players := g.players.map (fun p =>
      if p.isAlive then { p with voted := false, voteTarget := none } else p) }

/-- The voting-timeout decision core of `processVoting` (gameFlow lines
884-916): take the top tally entry; eliminate it when its count reaches
`ceil(aliveCount / 2)` and it names a registered player. Returns the game
plus the eliminated player's id, if any. -/
def processVotingDecision (g : Game) : Game × Option String :=
  match getVoteResults g with
  | [] => (g, none)
  | top :: _ =>
    let aliveCount := g.getAlivePlayers.length
    let majority := (aliveCount + 1) / 2
    if top.votes ≥ majority then
      match g.getPlayer top.target with
      | some _ => (eliminatePlayer g top.target, some top.target)
      | none => (g, none)
    else (g, none)

/-- Outcome tags for the vote-button branch of `handleIntentMessage`. -/
inductive VoteButtonOutcome where
  | dmRejected
  | targetNotFound
  | voterRejected
  | notVotingPhase
  | voteChanged
  | voteCast
  deriving DecidableEq, Repr

/-- The vote-button branch of `handleIntentMessage` (intentHandler lines
190-231), state-mutating core: resolve the target by inboxId (no liveness
test on the target), require a living registered voter and a voting phase,
then unconditionally overwrite the voter's `voted`/`voteTarget`. -/
def handleVoteButton (g : Game) (senderInboxId targetInboxId : String)
    (isDM : Bool) : Game × VoteButtonOutcome :=
  if isDM then (g, VoteButtonOutcome.dmRejected)
  else
    match g.getPlayer targetInboxId with
    | none => (g, VoteButtonOutcome.targetNotFound)
    | some _ =>
      match g.getPlayer senderInboxId with
      | none => (g, VoteButtonOutcome.voterRejected)
      | some voter =>
        if ¬(voter.isAlive = true) then (g, VoteButtonOutcome.voterRejected)
        else if ¬(isVotingPhase g.state = true) then (g, VoteButtonOutcome.notVotingPhase)
        else
          (g.setPlayer { voter with voted := true, voteTarget := some targetInboxId },
           if voter.voted then VoteButtonOutcome.voteChanged else VoteButtonOutcome.voteCast)

/-- The task-phase timeout callback (gameFlow lines 756-759): advance
unconditionally (no phase re-validation), then start the kill phase
(messaging only). -/
def taskPhaseTimeout (genTask : String → Task) (g : Game) : Game :=
  advancePhase g genTask

/-- The kill-phase timeout callback (gameFlow lines 807-819): advance only
after re-validating that the session is still in a kill phase. -/
def killPhaseTimeout (genTask : String → Task) (g : Game) : Game :=
  if isKillPhase g.state then advancePhase g genTask else g

/-- The discussion-phase timeout callback (gameFlow lines 835-838): advance
unconditionally (no phase re-validation). -/
def discussionPhaseTimeout (genTask : String → Task) (g : Game) : Game :=
  advancePhase g genTask

/-- Spec-side predicate for claim C1: the assigned adversary is absent from
the roster or not alive. -/
def adversaryAbsentOrDead (g : Game) : Bool :=
  match g.impostorInboxId with
  | none => true
  | some id =>
    match g.getPlayer id with
    | none => true
    | some p => !p.isAlive

/-! ## Helper lemmas about the roster embedding -/

theorem find?_map_comm (f : Player → Player) (pr : Player → Bool)
    (h : ∀ a, pr (f a) = pr a) (l : List Player) :
    (l.map f).find? pr = (l.find? pr).map f := by
  induction l with
  | nil => rfl
  | cons a t ih =>
    by_cases hpa : pr a = true
    · rw [List.map_cons, List.find?_cons_of_pos _ (by rw [h a]; exact hpa),
        List.find?_cons_of_pos _ hpa, Option.map_some']
    · rw [List.map_cons, List.find?_cons_of_neg _ (by rw [h a]; exact hpa),
        List.find?_cons_of_neg _ hpa, ih]

theorem find?_inboxId_eq {l : List Player} {i : String} {p : Player}
    (h : l.find? (fun q => q.inboxId == i) = some p) : p.inboxId = i := by
  have h2 := List.find?_some h
  exact eq_of_beq h2

theorem getPlayer_inboxId {g : Game} {i : String} {p : Player}
    (h : g.getPlayer i = some p) : p.inboxId = i := by
  unfold Game.getPlayer at h
  exact find?_inboxId_eq h

theorem getPlayer_setPlayer (g : Game) (p : Player) (i : String) :
    (g.setPlayer p).getPlayer i =
      if p.inboxId = i then (g.getPlayer i).map (fun _ => p) else g.getPlayer i := by
  have hcomm : ∀ a : Player,
      ((if a.inboxId == p.inboxId then p else a).inboxId == i) = (a.inboxId == i) := by
    intro a
    by_cases ha : a.inboxId = p.inboxId
    · rw [if_pos (beq_of_eq ha), ha]
    · rw [if_neg (fun hc => ha (eq_of_beq hc))]
  unfold Game.setPlayer Game.getPlayer
  rw [find?_map_comm _ _ hcomm g.players]
  by_cases hpi : p.inboxId = i
  · rw [if_pos hpi]
    cases hq : g.players.find? (fun q => q.inboxId == i) with
    | none => rfl
    | some q =>
        have hqi : q.inboxId = i := find?_inboxId_eq hq
        have hrepl : (if q.inboxId == p.inboxId then p else q) = p :=
          if_pos (beq_of_eq (hqi.trans hpi.symm))
        simp only [Option.map_some', hrepl]
  · rw [if_neg hpi]
    cases hq : g.players.find? (fun q => q.inboxId == i) with
    | none => rfl
    | some q =>
        have hqi : q.inboxId = i := find?_inboxId_eq hq
        have hrepl : (if q.inboxId == p.inboxId then p else q) = q :=
          if_neg (fun hc => hpi ((eq_of_beq hc).symm.trans hqi))
        simp only [Option.map_some', hrepl]

theorem getPlayer_mapPlayers (g : Game) (f : Player → Player)
    (hf : ∀ q, (f q).inboxId = q.inboxId) (i : String) :
    ({ g with players := g.players.map f } : Game).getPlayer i = (g.getPlayer i).map f := by
  unfold Game.getPlayer
  exact find?_map_comm f _ (fun a => by rw [hf a]) g.players

theorem find?_decomp {α : Type} (pr : α → Bool) :
    ∀ (l : List α) (x : α), l.find? pr = some x →
      ∃ A B, l = A ++ x :: B ∧ ∀ y ∈ A, pr y = false := by
  intro l
  induction l with
  | nil => intro x h; cases h
  | cons a t ih =>
    intro x h
    by_cases hpa : pr a = true
    · rw [List.find?_cons_of_pos _ hpa] at h
      obtain rfl : a = x := by injection h
      exact ⟨[], t, rfl, by intro y hy; cases hy⟩
    · have hfalse : pr a = false := by
        cases hc : pr a
        · rfl
        · exact absurd hc hpa
      rw [List.find?_cons_of_neg _ hpa] at h
      obtain ⟨A, B, hl, hA⟩ := ih x h
      refine ⟨a :: A, B, by rw [hl]; rfl, ?_⟩
      intro y hy
      rcases List.mem_cons.mp hy with rfl | hy2
      · exact hfalse
      · exact hA y hy2

theorem set_append_cons {α : Type} (A : List α) (b c : α) (C : List α) :
    (A ++ b :: C).set A.length c = A ++ c :: C := by
  induction A with
  | nil => rfl
  | cons a t ih => simp only [List.cons_append, List.length_cons, List.set_cons_succ, ih]

/-! ## Concrete fixtures for witnesses and counterexamples -/

/-- A default player record, as `addPlayer` creates it (username = inboxId). -/
def basePlayer (id : String) : Player :=
  { inboxId := id, username := id, role := none, isAlive := true,
    completedTasks := 0, killAttempts := 0, lastKillAttempt := none,
    voted := false, voteTarget := none }

/-- A default session record with arbitrary concrete tunables. -/
def baseGame : Game :=
  { state := GameState.IDLE, players := [], round := 0, joinDeadline := none,
    impostorInboxId := none, eliminatedPlayers := [], killCooldown := 20000,
    maxKillAttempts := 2, taskAssignments := [] }

/-- A concrete stand-in for the external task generator. -/
def defaultGen : String → Task := fun s => { question := s, answer := s, completed := false }

/-- Fixture for C1's witness: round 2, the adversary already eliminated. -/
def gC1 : Game :=
  { baseGame with
    state := GameState.ROUND_2_TASKS, round := 2,
    players := [{ basePlayer "mal" with role := some Role.IMPOSTOR, isAlive := false },
                { basePlayer "alice" with role := some Role.CREW },
                { basePlayer "bob" with role := some Role.CREW }],
    impostorInboxId := some "mal", eliminatedPlayers := ["mal"] }

/-- Fixture for C7's counterexample: round 1's voting phase has been entered
(`advancePhase` runs before `startVotingPhase`'s reset), no vote cast yet. -/
def gC7 : Game :=
  { baseGame with
    state := GameState.ROUND_1_VOTING, round := 1,
    players := [{ basePlayer "alice" with role := some Role.CREW },
                { basePlayer "bob" with role := some Role.IMPOSTOR }],
    impostorInboxId := some "bob" }

/-- Fixture for C8: a voting phase with `bob` already eliminated. -/
def gC8 : Game :=
  { baseGame with
    state := GameState.ROUND_1_VOTING, round := 1,
    players := [{ basePlayer "alice" with role := some Role.CREW },
                { basePlayer "bob" with role := some Role.CREW, isAlive := false },
                { basePlayer "carol" with role := some Role.IMPOSTOR }],
    impostorInboxId := some "carol", eliminatedPlayers := ["bob"] }

/-- Fixture for C9's counterexample: the session sits in round 1's kill
phase, where a stale round-1 task-phase timeout might still fire. -/
def gC9stale : Game :=
  { baseGame with
    state := GameState.ROUND_1_KILL, round := 1,
    players := [{ basePlayer "mal" with role := some Role.IMPOSTOR },
                { basePlayer "alice" with role := some Role.CREW }],
    impostorInboxId := some "mal" }

/-- Fixture for C9's witness: a voting-phase session, not a kill phase. -/
def gC9voting : Game :=
  { baseGame with
    state := GameState.ROUND_1_VOTING, round := 1,
    players := [{ basePlayer "mal" with role := some Role.IMPOSTOR },
                { basePlayer "alice" with role := some Role.CREW }],
    impostorInboxId := some "mal" }

/-- The already-voted voter of the C10 witness fixture. -/
def gC10voter : Player :=
  { basePlayer "alice" with voted := true, voteTarget := some "bob" }

/-- Fixture for C10's witness: a voting phase in which `alice` has voted. -/
def gC10 : Game :=
  { baseGame with
    state := GameState.ROUND_1_VOTING, round := 1,
    players := [gC10voter, basePlayer "bob", basePlayer "carol"],
    impostorInboxId := some "bob" }

/-! ## Claim C1: checkWinCondition characterization -/

theorem adversaryAbsentOrDead_some {g : Game} {impId : String}
    (h : g.impostorInboxId = some impId) :
    adversaryAbsentOrDead g =
      (match g.getPlayer impId with | none => true | some p => !p.isAlive) := by
  unfold adversaryAbsentOrDead
  rw [h]

/-- C1: `checkWinCondition` returns the allies (CREW) win exactly when the
assigned adversary is absent from the roster or not alive, regardless of
round or phase, and this branch takes precedence over every other outcome;
otherwise it returns the adversary (IMPOSTOR) win exactly when the round
equals `MAX_ROUNDS` and the session state shows round `MAX_ROUNDS`'s voting
phase completed or later (state `ROUND_3_VOTING`, where the final tally is
evaluated, or `GAME_END`) with the adversary alive; otherwise it reports no
winner. -/
theorem C1_checkWinCondition (g : Game) (impId : String)
    (h : g.impostorInboxId = some impId) :
    (checkWinCondition g = (true, some Winner.CREW) ↔ adversaryAbsentOrDead g = true)
  ∧ (checkWinCondition g = (true, some Winner.IMPOSTOR) ↔
      adversaryAbsentOrDead g = false ∧ g.round = MAX_ROUNDS ∧
        (g.state = GameState.ROUND_3_VOTING ∨ g.state = GameState.GAME_END))
  ∧ (checkWinCondition g = (false, none) ↔
      adversaryAbsentOrDead g = false ∧
        ¬(g.round = MAX_ROUNDS ∧
          (g.state = GameState.ROUND_3_VOTING ∨ g.state = GameState.GAME_END))) := by
  rw [adversaryAbsentOrDead_some h]
  unfold checkWinCondition
  rw [h, Option.getD_some]
  cases hf : g.getPlayer impId with
  | none => simp
  | some imp =>
    cases halive : imp.isAlive with
    | false => simp [halive]
    | true =>
      by_cases hc : g.round = MAX_ROUNDS ∧
          (g.state = GameState.ROUND_3_VOTING ∨ g.state = GameState.GAME_END)
      · simp [halive, hc]
      · simp [halive, hc]

/-- Witness for C1 at the fixture `gC1` (adversary eliminated in round 2):
the CREW-win branch fires. -/
theorem C1_checkWinCondition_witness :
    gC1.impostorInboxId = some "mal" ∧
    (checkWinCondition gC1 = (true, some Winner.CREW) ↔
      adversaryAbsentOrDead gC1 = true) :=
  ⟨rfl, (C1_checkWinCondition gC1 "mal" rfl).1⟩

/-! ## Claim C7: per-round field resets -/

/-- Counterexample for C7: the voting-phase entry reset
(`startVotingPhaseReset`, an operation other than `startRound`) resets a
living player's `hasVoted`/`voteTarget` mid-round — here it erases a vote
legitimately cast in the voting phase, so the fields are not reset only at
`startRound`. -/
theorem C7_counterexample :
    (castVote gC7 "alice" "bob").2 = true ∧
    ((castVote gC7 "alice" "bob").1.getPlayer "alice").map
        (fun p => (p.voted, p.voteTarget)) = some (true, some "bob") ∧
    ((startVotingPhaseReset (castVote gC7 "alice" "bob").1).getPlayer "alice").map
        (fun p => (p.voted, p.voteTarget)) = some (false, none) := by
  decide

/-! ## Claim C8: eliminated players as vote targets -/

/-- C8 is violated by the code: with `bob` eliminated (not alive), `castVote`
still resolves him by username and records him as `alice`'s vote target, and
the vote-button intent handler likewise accepts the dead target's inboxId —
neither rejects a target who is not alive. -/
theorem C8_dead_target_voted :
    (gC8.getPlayer "bob").map Player.isAlive = some false ∧
    (castVote gC8 "alice" "bob").2 = true ∧
    ((castVote gC8 "alice" "bob").1.getPlayer "alice").map Player.voteTarget =
      some (some "bob") ∧
    (handleVoteButton gC8 "alice" "bob" false).2 = VoteButtonOutcome.voteCast ∧
    ((handleVoteButton gC8 "alice" "bob" false).1.getPlayer "alice").map
        Player.voteTarget = some (some "bob") := by
  decide

/-! ## Claim C9: phase-timeout re-validation -/

/-- Counterexample for C9: the task-phase timeout callback (gameFlow lines
756-759) does not re-validate the phase — fired while the session is in
round 1's kill phase, it advances the state to round 1's discussion phase
instead of being a silent no-op. -/
theorem C9_counterexample :
    gC9stale.state = GameState.ROUND_1_KILL ∧
    (taskPhaseTimeout defaultGen gC9stale).state = GameState.ROUND_1_DISCUSSION ∧
    taskPhaseTimeout defaultGen gC9stale ≠ gC9stale := by
  decide

/-- C9 (amended): only the kill-phase timeout callback re-validates its
phase before mutating: if the session is no longer in a kill phase it is a
silent no-op. The task-, discussion- and voting-phase callbacks advance
unconditionally; staleness for them is prevented by timer cancellation, not
by re-validation. -/
theorem C9_kill_timeout_revalidates (genTask : String → Task) (g : Game)
    (h : isKillPhase g.state = false) : killPhaseTimeout genTask g = g := by
  unfold killPhaseTimeout
  rw [h]
  simp

/-- Witness for the amended C9: a stale kill-phase timeout firing in a
voting phase changes nothing. -/
theorem C9_kill_timeout_revalidates_witness :
    isKillPhase gC9voting.state = false ∧
    killPhaseTimeout defaultGen gC9voting = gC9voting :=
  ⟨by decide, C9_kill_timeout_revalidates defaultGen gC9voting (by decide)⟩

/-! ## Claim C10: vote buttons overwrite an existing vote -/

/-- C10: in the vote-button intent handler, a living voter in a voting phase
whose `voted` flag is already set still has their `voteTarget` overwritten
with any registered target (the handler reports a changed vote and leaves
`voted` true), bypassing the already-voted rejection of `castVote`. -/
theorem C10_vote_button_overwrites (g : Game) (sender targetId : String)
    (voter : Player)
    (hv : g.getPlayer sender = some voter)
    (halive : voter.isAlive = true)
    (hvoted : voter.voted = true)
    (hphase : isVotingPhase g.state = true)
    (ht : (g.getPlayer targetId).isSome = true) :
    (handleVoteButton g sender targetId false).2 = VoteButtonOutcome.voteChanged ∧
    (handleVoteButton g sender targetId false).1.getPlayer sender =
      some { voter with voted := true, voteTarget := some targetId } := by
  obtain ⟨t, ht2⟩ := Option.isSome_iff_exists.mp ht
  have hsid : voter.inboxId = sender := getPlayer_inboxId hv
  have hup : ({ voter with voted := true, voteTarget := some targetId } : Player).inboxId
      = sender := hsid
  have hred : handleVoteButton g sender targetId false =
      (g.setPlayer { voter with voted := true, voteTarget := some targetId },
       VoteButtonOutcome.voteChanged) := by
    unfold handleVoteButton
    rw [ht2, hv]
    simp [halive, hvoted, hphase]
  rw [hred]
  refine ⟨rfl, ?_⟩
  rw [getPlayer_setPlayer, if_pos hup, hv, Option.map_some']

/-- Witness for C10 at the fixture `gC10`: `alice` has voted for `bob`, a
button click for `carol` changes the recorded target. -/
theorem C10_vote_button_overwrites_witness :
    gC10.getPlayer "alice" = some gC10voter ∧
    (handleVoteButton gC10 "alice" "carol" false).2 = VoteButtonOutcome.voteChanged ∧
    (handleVoteButton gC10 "alice" "carol" false).1.getPlayer "alice" =
      some { gC10voter with voted := true, voteTarget := some "carol" } :=
  ⟨by decide,
   C10_vote_button_overwrites gC10 "alice" "carol" gC10voter (by decide) (by decide)
     (by decide) (by decide) (by decide)⟩

/-! ## Claim C2: role assignment counts -/

theorem assignRoles_players {g : Game} {now i : Nat} {g2 : Game}
    (h : assignRoles g now i = some g2) :
    ∃ imp, g.players.get? i = some imp ∧
      g2.players = (g.players.set i { imp with role := some Role.IMPOSTOR }).map
        (fun p => if ¬(p.inboxId = imp.inboxId)
                  then { p with role := some Role.CREW } else p) ∧
      g2.impostorInboxId = some imp.inboxId := by
  unfold assignRoles at h
  by_cases hcond : g.state = GameState.WAITING_FOR_PLAYERS ∧ canStartGame g now = true
  · rw [if_neg (not_not_intro hcond)] at h
    cases hget : g.players.get? i with
    | none => rw [hget] at h; cases h
    | some imp =>
        rw [hget] at h
        injection h with hg2
        subst hg2
        exact ⟨imp, rfl, rfl, rfl⟩
  · rw [if_pos hcond] at h
    cases h

/-- C2: for every roster of size `N` between `MIN_PLAYERS_TO_START` and
`MAX_PLAYERS` (with distinct inboxIds, as the JS map guarantees) on which
`assignRoles` succeeds, afterwards exactly one player holds the adversary
(IMPOSTOR) role and the other `N - 1` players all hold the ally (CREW) role,
the role counts sum to `N`, and `impostorInboxId` names that one adversary. -/
theorem C2_assignRoles (g : Game) (now i : Nat) (g2 : Game)
    (hnodup : (g.players.map Player.inboxId).Nodup)
    (hmin : MIN_PLAYERS_TO_START ≤ g.players.length)
    (hmax : g.players.length ≤ MAX_PLAYERS)
    (h : assignRoles g now i = some g2) :
    g2.players.length = g.players.length ∧
    (g2.players.filter (fun p => p.role == some Role.IMPOSTOR)).length = 1 ∧
    (g2.players.filter (fun p => p.role == some Role.CREW)).length =
      g.players.length - 1 ∧
    (g2.players.filter (fun p => p.role == some Role.IMPOSTOR)).length +
      (g2.players.filter (fun p => p.role == some Role.CREW)).length =
      g.players.length ∧
    ∃ imp, g2.impostorInboxId = some imp.inboxId ∧ imp ∈ g2.players ∧
      imp.role = some Role.IMPOSTOR := by
  obtain ⟨imp, hget, hpl, himpid⟩ := assignRoles_players h
  obtain ⟨hilt, hgeti⟩ := List.get?_eq_some.mp hget
  obtain ⟨A, C, hsplit, hAlen⟩ :
      ∃ A C, g.players = A ++ imp :: C ∧ A.length = i := by
    refine ⟨g.players.take i, g.players.drop (i + 1), ?_, ?_⟩
    · conv_lhs => rw [← List.take_append_drop i g.players]
      congr 1
      rw [← hgeti]
      exact (List.get_cons_drop _ ⟨i, hilt⟩).symm
    · rw [List.length_take]
      exact Nat.min_eq_left (Nat.le_of_lt hilt)
  have hset : (A ++ imp :: C).set i { imp with role := some Role.IMPOSTOR } =
      A ++ { imp with role := some Role.IMPOSTOR } :: C := by
    rw [← hAlen]
    exact set_append_cons A imp _ C
  rw [hsplit, hset, List.map_append, List.map_cons] at hpl
  have hcimp : ¬¬(({ imp with role := some Role.IMPOSTOR } : Player).inboxId
      = imp.inboxId) := not_not_intro rfl
  rw [if_neg hcimp] at hpl
  rw [hsplit, List.map_append, List.map_cons] at hnodup
  have hnotin : imp.inboxId ∉
      (A.map Player.inboxId ++ C.map Player.inboxId) :=
    (List.nodup_cons.mp (List.nodup_middle.mp hnodup)).1
  have hAne : ∀ p ∈ A, ¬(p.inboxId = imp.inboxId) := by
    intro p hp heq
    exact hnotin (List.mem_append_left _ (heq ▸ List.mem_map_of_mem Player.inboxId hp))
  have hCne : ∀ p ∈ C, ¬(p.inboxId = imp.inboxId) := by
    intro p hp heq
    exact hnotin (List.mem_append_right _ (heq ▸ List.mem_map_of_mem Player.inboxId hp))
  have hmapA : ∀ x ∈ A.map (fun p : Player => if ¬(p.inboxId = imp.inboxId)
      then { p with role := some Role.CREW } else p), x.role = some Role.CREW := by
    intro x hx
    obtain ⟨p, hp, rfl⟩ := List.mem_map.mp hx
    rw [if_pos (hAne p hp)]
  have hmapC : ∀ x ∈ C.map (fun p : Player => if ¬(p.inboxId = imp.inboxId)
      then { p with role := some Role.CREW } else p), x.role = some Role.CREW := by
    intro x hx
    obtain ⟨p, hp, rfl⟩ := List.mem_map.mp hx
    rw [if_pos (hCne p hp)]
  have hfiltAi : ((A.map (fun p : Player => if ¬(p.inboxId = imp.inboxId)
      then { p with role := some Role.CREW } else p)).filter
        (fun p => p.role == some Role.IMPOSTOR)) = [] := by
    rw [List.filter_eq_nil_iff]
    intro x hx
    simp [hmapA x hx]
  have hfiltCi : ((C.map (fun p : Player => if ¬(p.inboxId = imp.inboxId)
      then { p with role := some Role.CREW } else p)).filter
        (fun p => p.role == some Role.IMPOSTOR)) = [] := by
    rw [List.filter_eq_nil_iff]
    intro x hx
    simp [hmapC x hx]
  have hfiltAc : ((A.map (fun p : Player => if ¬(p.inboxId = imp.inboxId)
      then { p with role := some Role.CREW } else p)).filter
        (fun p => p.role == some Role.CREW)) =
      A.map (fun p : Player => if ¬(p.inboxId = imp.inboxId)
        then { p with role := some Role.CREW } else p) := by
    rw [List.filter_eq_self]
    intro x hx
    simp [hmapA x hx]
  have hfiltCc : ((C.map (fun p : Player => if ¬(p.inboxId = imp.inboxId)
      then { p with role := some Role.CREW } else p)).filter
        (fun p => p.role == some Role.CREW)) =
      C.map (fun p : Player => if ¬(p.inboxId = imp.inboxId)
        then { p with role := some Role.CREW } else p) := by
    rw [List.filter_eq_self]
    intro x hx
    simp [hmapC x hx]
  have hlen : g.players.length = A.length + C.length + 1 := by
    rw [hsplit]
    simp [List.length_append]
    omega
  refine ⟨?_, ?_, ?_, ?_, ?_⟩
  · rw [hpl, hlen]
    simp [List.length_append, List.length_map]
    omega
  · rw [hpl, List.filter_append, hfiltAi, List.filter_cons_of_pos (by simp), hfiltCi]
    simp
  · rw [hpl, List.filter_append, hfiltAc,
      List.filter_cons_of_neg (by simp), hfiltCc, hlen]
    simp [List.length_append, List.length_map]
  · rw [hpl, List.filter_append, hfiltAi, List.filter_cons_of_pos (by simp), hfiltCi,
      List.filter_append, hfiltAc, List.filter_cons_of_neg (by simp), hfiltCc, hlen]
    simp [List.length_append, List.length_map]
    omega
  · refine ⟨{ imp with role := some Role.IMPOSTOR }, himpid, ?_, rfl⟩
    rw [hpl]
    exact List.mem_append_right _ (List.mem_cons_self _ _)

/-- Fixture for C2's witness: four distinct players waiting, join deadline
passed, the impostor index drawn as 2. -/
def gC2 : Game :=
  { baseGame with
    state := GameState.WAITING_FOR_PLAYERS,
    joinDeadline := some 10,
    players := [basePlayer "alice", basePlayer "bob", basePlayer "carol",
                basePlayer "dave"] }

/-- Witness for C2 at the fixture `gC2`: `assignRoles` at time 20 with index
2 succeeds and yields exactly one IMPOSTOR and three CREW. -/
theorem C2_assignRoles_witness :
    (gC2.players.map Player.inboxId).Nodup ∧
    MIN_PLAYERS_TO_START ≤ gC2.players.length ∧
    gC2.players.length ≤ MAX_PLAYERS ∧
    ∃ g2, assignRoles gC2 20 2 = some g2 ∧
      (g2.players.filter (fun p => p.role == some Role.IMPOSTOR)).length = 1 ∧
      (g2.players.filter (fun p => p.role == some Role.CREW)).length =
        gC2.players.length - 1 := by
  have hs : (assignRoles gC2 20 2).isSome = true := by decide
  refine ⟨by decide, by decide, by decide, (assignRoles gC2 20 2).get hs,
    (Option.some_get hs).symm, ?_, ?_⟩
  · exact (C2_assignRoles gC2 20 2 _ (by decide) (by decide) (by decide)
      (Option.some_get hs).symm).2.1
  · exact (C2_assignRoles gC2 20 2 _ (by decide) (by decide) (by decide)
      (Option.some_get hs).symm).2.2.1

/-! ## Claim C3: vote tally and the majority rule -/

theorem bumpCount_keys {m : List (String × Nat)} {t x : String}
    (h : x ∈ (bumpCount m t).map Prod.fst) : x ∈ m.map Prod.fst ∨ x = t := by
  unfold bumpCount at h
  split at h
  · obtain ⟨kv, hkv, heq⟩ := List.mem_map.mp h
    obtain ⟨ab, hab, hab2⟩ := List.mem_map.mp hkv
    left
    have hx : x = ab.1 := by
      by_cases hk : (ab.1 == t) = true
      · rw [if_pos hk] at hab2
        rw [← heq, ← hab2]
      · rw [if_neg hk] at hab2
        rw [← heq, ← hab2]
    rw [hx]
    exact List.mem_map_of_mem Prod.fst hab
  · rw [List.map_append] at h
    rcases List.mem_append.mp h with hm | hlast
    · left; exact hm
    · right
      simpa using hlast

theorem tally_keys_aux (l : List Player) :
    ∀ (acc : List (String × Nat)) (kv : String × Nat),
      kv ∈ l.foldl (fun m p =>
        if p.isAlive && p.voted then
          match p.voteTarget with
          | some t => bumpCount m t
          | none => m
        else m) acc →
      kv.1 ∈ acc.map Prod.fst ∨
        ∃ p ∈ l, p.isAlive = true ∧ p.voted = true ∧ p.voteTarget = some kv.1 := by
  induction l with
  | nil =>
      intro acc kv h
      rw [List.foldl_nil] at h
      exact Or.inl (List.mem_map_of_mem Prod.fst h)
  | cons p t ih =>
      intro acc kv h
      rw [List.foldl_cons] at h
      rcases ih _ kv h with hkey | hex
      · by_cases hg : (p.isAlive && p.voted) = true
        · cases ht : p.voteTarget with
          | none =>
              simp only [hg, ht, if_true] at hkey
              exact Or.inl hkey
          | some tgt =>
              simp only [hg, ht, if_true] at hkey
              rcases bumpCount_keys hkey with h1 | h2
              · exact Or.inl h1
              · have hb : p.isAlive = true ∧ p.voted = true := by simpa using hg
                refine Or.inr ⟨p, List.mem_cons_self _ _, hb.1, hb.2, ?_⟩
                rw [ht, h2]
        · simp only [hg] at hkey
          exact Or.inl hkey
      · obtain ⟨q, hq, hrest⟩ := hex
        exact Or.inr ⟨q, List.mem_cons_of_mem _ hq, hrest⟩

theorem tally_provenance {players : List Player} {kv : String × Nat}
    (h : kv ∈ tallyVotes players) :
    ∃ p ∈ players, p.isAlive = true ∧ p.voted = true ∧
      p.voteTarget = some kv.1 := by
  unfold tallyVotes at h
  rcases tally_keys_aux players [] kv h with hkey | hex
  · simp at hkey
  · exact hex

theorem getVoteResults_mem {g : Game} {r : VoteResult} (h : r ∈ getVoteResults g) :
    ∃ kv ∈ tallyVotes g.players, r = { target := kv.1, votes := kv.2 } := by
  unfold getVoteResults at h
  have hperm := (List.perm_insertionSort voteOrder _).mem_iff.mp h
  obtain ⟨kv, hkv, heq⟩ := List.mem_map.mp hperm
  exact ⟨kv, hkv, heq.symm⟩

theorem getVoteResults_head_max {g : Game} {top : VoteResult} {rest : List VoteResult}
    (h : getVoteResults g = top :: rest) :
    ∀ r ∈ getVoteResults g, r.votes ≤ top.votes := by
  have hs : List.Sorted voteOrder (getVoteResults g) :=
    List.sorted_insertionSort voteOrder _
  rw [h] at hs
  intro r hr
  rw [h] at hr
  rcases List.mem_cons.mp hr with rfl | hmem
  · exact Nat.le_refl _
  · exact List.rel_of_sorted_cons hs r hmem

theorem getPlayer_isSome_of_exists {g : Game} {t : String}
    (h : ∃ q ∈ g.players, q.inboxId = t) : (g.getPlayer t).isSome = true := by
  obtain ⟨q, hq, hid⟩ := h
  unfold Game.getPlayer
  rw [List.find?_isSome]
  exact ⟨q, hq, by simp [hid]⟩

theorem processVotingDecision_nil {g : Game} (h : getVoteResults g = []) :
    processVotingDecision g = (g, none) := by
  unfold processVotingDecision
  rw [h]

theorem processVotingDecision_cons {g : Game} {top : VoteResult}
    {rest : List VoteResult} (h : getVoteResults g = top :: rest) :
    processVotingDecision g =
      (if (g.getAlivePlayers.length + 1) / 2 ≤ top.votes then
        match g.getPlayer top.target with
        | some _ => (eliminatePlayer g top.target, some top.target)
        | none => (g, none)
      else (g, none)) := by
  unfold processVotingDecision
  rw [h]

/-- Fixture for C3: five living voters, three votes on `bob`, two on
`alice` — the top count 3 reaches `ceil(5/2) = 3`. -/
def gC3five : Game :=
  { baseGame with
    state := GameState.ROUND_1_VOTING, round := 1,
    players := [
      { basePlayer "alice" with voted := true, voteTarget := some "bob" },
      { basePlayer "bob" with voted := true, voteTarget := some "alice" },
      { basePlayer "carol" with voted := true, voteTarget := some "bob" },
      { basePlayer "dave" with voted := true, voteTarget := some "bob" },
      { basePlayer "erin" with voted := true, voteTarget := some "alice" }] }

/-- Fixture for C3: six living players, three votes on `bob`, three
abstentions — the top count 3 reaches `ceil(6/2) = 3`. -/
def gC3six : Game :=
  { baseGame with
    state := GameState.ROUND_1_VOTING, round := 1,
    players := [
      { basePlayer "alice" with voted := true, voteTarget := some "bob" },
      basePlayer "bob",
      { basePlayer "carol" with voted := true, voteTarget := some "bob" },
      { basePlayer "dave" with voted := true, voteTarget := some "bob" },
      basePlayer "erin",
      basePlayer "frank"] }

/-- Fixture for C3: five living voters split 2-2-1 — the top count 2 misses
`ceil(5/2) = 3`. -/
def gC3split : Game :=
  { baseGame with
    state := GameState.ROUND_1_VOTING, round := 1,
    players := [
      { basePlayer "alice" with voted := true, voteTarget := some "bob" },
      { basePlayer "bob" with voted := true, voteTarget := some "alice" },
      { basePlayer "carol" with voted := true, voteTarget := some "bob" },
      { basePlayer "dave" with voted := true, voteTarget := some "alice" },
      { basePlayer "erin" with voted := true, voteTarget := some "carol" }] }

/-- C3: in the voting-phase tally (`processVotingDecision` over
`getVoteResults`), a player is eliminated by the round's vote if and only if
the top target's vote count among living voters who voted reaches
`ceil(aliveCount / 2)` (embedded as `(aliveCount + 1) / 2`), provided every
recorded vote target names a registered player (true of every reachable
session); the head of `getVoteResults` is a maximum of the tally; and in
particular with 5 alive 3 votes eliminate, with 6 alive 3 votes eliminate,
and a 2-2-1 split eliminates no one. -/
theorem C3_voting_majority :
    (∀ g : Game,
      (∀ p ∈ g.players, p.isAlive = true → p.voted = true →
        (p.voteTarget = none ∨ ∃ q ∈ g.players, p.voteTarget = some q.inboxId)) →
      (((processVotingDecision g).2.isSome = true ↔
        ∃ top rest, getVoteResults g = top :: rest ∧
          (g.getAlivePlayers.length + 1) / 2 ≤ top.votes) ∧
       (∀ top rest, getVoteResults g = top :: rest →
          ∀ r ∈ getVoteResults g, r.votes ≤ top.votes))) ∧
    (processVotingDecision gC3five).2 = some "bob" ∧
    (processVotingDecision gC3six).2 = some "bob" ∧
    (processVotingDecision gC3split).2 = none := by
  refine ⟨?_, by decide, by decide, by decide⟩
  intro g hw
  constructor
  · cases hres : getVoteResults g with
    | nil =>
        rw [processVotingDecision_nil hres]
        simp [hres]
    | cons top rest =>
        by_cases hv : (g.getAlivePlayers.length + 1) / 2 ≤ top.votes
        · have htop_mem : top ∈ getVoteResults g := by
            rw [hres]; exact List.mem_cons_self _ _
          obtain ⟨kv, hkv, hkveq⟩ := getVoteResults_mem htop_mem
          obtain ⟨p, hp, hal, hvo, htg⟩ := tally_provenance hkv
          have hreg : ∃ q ∈ g.players, q.inboxId = kv.1 := by
            rcases hw p hp hal hvo with hnone | ⟨q, hq, hqt⟩
            · rw [htg] at hnone; cases hnone
            · rw [htg] at hqt
              injection hqt with he
              exact ⟨q, hq, he.symm⟩
          have htt : top.target = kv.1 := by rw [hkveq]
          have hsome : (g.getPlayer top.target).isSome = true := by
            rw [htt]; exact getPlayer_isSome_of_exists hreg
          obtain ⟨q, hq⟩ := Option.isSome_iff_exists.mp hsome
          rw [processVotingDecision_cons hres, if_pos hv, hq]
          exact ⟨fun _ => ⟨top, rest, rfl, hv⟩, fun _ => rfl⟩
        · rw [processVotingDecision_cons hres, if_neg hv]
          constructor
          · intro hfalse
            exact absurd hfalse (by simp)
          · rintro ⟨top2, rest2, heq, hv2⟩
            injection heq with h1 h2
            exact absurd hv2 (h1 ▸ hv)
  · intro top rest hres r hr
    exact getVoteResults_head_max hres r hr

/-- Witness for C3's universally quantified part at the fixture `gC3five`:
its vote targets are registered and the elimination decision matches the
majority test. -/
theorem C3_voting_majority_witness :
    (∀ p ∈ gC3five.players, p.isAlive = true → p.voted = true →
      (p.voteTarget = none ∨ ∃ q ∈ gC3five.players, p.voteTarget = some q.inboxId)) ∧
    ((processVotingDecision gC3five).2.isSome = true ↔
      ∃ top rest, getVoteResults gC3five = top :: rest ∧
        (gC3five.getAlivePlayers.length + 1) / 2 ≤ top.votes) :=
  ⟨by decide, (C3_voting_majority.1 gC3five (by decide)).1⟩

/-! ## Claim C4: kill cooldown and qualifying attempts -/

theorem getPlayer_set_elim (g : Game) (e : List String) (i : String) :
    ({ g with eliminatedPlayers := e } : Game).getPlayer i = g.getPlayer i := rfl

theorem insertElim_self_mem (s : List String) (x : String) : x ∈ insertElim s x := by
  unfold insertElim
  split
  next hc => exact List.mem_of_elem_eq_true hc
  next hc => exact List.mem_append_right _ (by simp)

/-- C4: a kill attempt by the living adversary during a kill phase made less
than `killCooldown` after their previous attempt is rejected (no qualifying
attempt happens, whatever the target resolution yields) and the whole
session state — in particular `killAttempts` and `lastKillAttempt` — is left
unchanged; a qualifying attempt (off cooldown, under the cap, valid non-self
living target) increments `killAttempts` and sets `lastKillAttempt` to the
current time regardless of the Bernoulli roll, and a successful roll
additionally records the target as eliminated. -/
theorem C4_attemptKill :
    (∀ (g : Game) (impId tid : String) (addrMatch : Option String) (now : Nat)
        (roll : Bool) (imp : Player) (t0 : Nat),
      g.getPlayer impId = some imp →
      imp.isAlive = true →
      imp.role = some Role.IMPOSTOR →
      isKillPhase g.state = true →
      imp.lastKillAttempt = some t0 →
      now - t0 < g.killCooldown →
      (attemptKill g impId tid addrMatch now roll).1 = g ∧
      (attemptKill g impId tid addrMatch now roll).2 ≠ KillOutcome.killSuccess ∧
      (attemptKill g impId tid addrMatch now roll).2 ≠ KillOutcome.killFailed) ∧
    (∀ (g : Game) (impId tid : String) (addrMatch : Option String) (now : Nat)
        (roll : Bool) (imp target : Player),
      g.getPlayer impId = some imp →
      imp.isAlive = true →
      imp.role = some Role.IMPOSTOR →
      isKillPhase g.state = true →
      resolveKillTarget g tid addrMatch = some target →
      ¬(target.inboxId = impId) →
      (∀ t0, imp.lastKillAttempt = some t0 → g.killCooldown ≤ now - t0) →
      imp.killAttempts < g.maxKillAttempts →
      (attemptKill g impId tid addrMatch now roll).1.getPlayer impId =
        some { imp with killAttempts := imp.killAttempts + 1,
                        lastKillAttempt := some now } ∧
      (roll = true →
        target.inboxId ∈
          (attemptKill g impId tid addrMatch now roll).1.eliminatedPlayers)) := by
  constructor
  · intro g impId tid addrMatch now roll imp t0 himp halive hrole hphase hlast hcd
    have h1 : ¬¬(imp.isAlive = true ∧ imp.role = some Role.IMPOSTOR) :=
      not_not_intro ⟨halive, hrole⟩
    have h2 : ¬¬(isKillPhase g.state = true) := not_not_intro hphase
    unfold attemptKill
    cases hres : resolveKillTarget g tid addrMatch with
    | none =>
        simp only [himp, hres]
        rw [if_neg h1, if_neg h2]
        exact ⟨rfl, by simp, by simp⟩
    | some target =>
        by_cases hself : target.inboxId = impId
        · simp only [himp, hres]
          rw [if_neg h1, if_neg h2, if_pos hself]
          exact ⟨rfl, by simp, by simp⟩
        · have hdec : decide (now - t0 < g.killCooldown) = true := decide_eq_true hcd
          simp only [himp, hres, hlast]
          rw [if_neg h1, if_neg h2, if_neg hself, if_pos hdec]
          exact ⟨rfl, by simp, by simp⟩
  · intro g impId tid addrMatch now roll imp target himp halive hrole hphase hres
      hself hcool hcap
    have h1 : ¬¬(imp.isAlive = true ∧ imp.role = some Role.IMPOSTOR) :=
      not_not_intro ⟨halive, hrole⟩
    have h2 : ¬¬(isKillPhase g.state = true) := not_not_intro hphase
    have hiid : imp.inboxId = impId := getPlayer_inboxId himp
    have himpid : ({ imp with killAttempts := imp.killAttempts + 1,
                              lastKillAttempt := some now } : Player).inboxId = impId := hiid
    have hnc : ¬(imp.killAttempts ≥ g.maxKillAttempts) := Nat.not_le.mpr hcap
    cases hlk : imp.lastKillAttempt with
    | none =>
        unfold attemptKill
        simp only [himp, hres, hlk]
        rw [if_neg h1, if_neg h2, if_neg hself, if_neg Bool.false_ne_true, if_neg hnc]
        cases roll with
        | false =>
            refine ⟨?_, fun h => by cases h⟩
            show (g.setPlayer { imp with killAttempts := imp.killAttempts + 1,
                                         lastKillAttempt := some now }).getPlayer impId =
              some { imp with killAttempts := imp.killAttempts + 1,
                              lastKillAttempt := some now }
            rw [getPlayer_setPlayer, if_pos himpid, himp, Option.map_some']
        | true =>
            refine ⟨?_, fun _ => ?_⟩
            · show ({ (g.setPlayer { imp with killAttempts := imp.killAttempts + 1,
                                              lastKillAttempt := some now }).setPlayer
                        { target with isAlive := false } with
                      eliminatedPlayers :=
                        insertElim g.eliminatedPlayers target.inboxId } : Game).getPlayer
                  impId =
                some { imp with killAttempts := imp.killAttempts + 1,
                                lastKillAttempt := some now }
              rw [getPlayer_set_elim, getPlayer_setPlayer, if_neg (fun hc => hself hc),
                getPlayer_setPlayer, if_pos himpid, himp, Option.map_some']
            · show target.inboxId ∈ insertElim g.eliminatedPlayers target.inboxId
              exact insertElim_self_mem _ _
    | some t0 =>
        have hdec : ¬(decide (now - t0 < g.killCooldown) = true) := by
          simpa using Nat.not_lt.mpr (hcool t0 hlk)
        unfold attemptKill
        simp only [himp, hres, hlk]
        rw [if_neg h1, if_neg h2, if_neg hself, if_neg hdec, if_neg hnc]
        cases roll with
        | false =>
            refine ⟨?_, fun h => by cases h⟩
            show (g.setPlayer { imp with killAttempts := imp.killAttempts + 1,
                                         lastKillAttempt := some now }).getPlayer impId =
              some { imp with killAttempts := imp.killAttempts + 1,
                              lastKillAttempt := some now }
            rw [getPlayer_setPlayer, if_pos himpid, himp, Option.map_some']
        | true =>
            refine ⟨?_, fun _ => ?_⟩
            · show ({ (g.setPlayer { imp with killAttempts := imp.killAttempts + 1,
                                              lastKillAttempt := some now }).setPlayer
                        { target with isAlive := false } with
                      eliminatedPlayers :=
                        insertElim g.eliminatedPlayers target.inboxId } : Game).getPlayer
                  impId =
                some { imp with killAttempts := imp.killAttempts + 1,
                                lastKillAttempt := some now }
              rw [getPlayer_set_elim, getPlayer_setPlayer, if_neg (fun hc => hself hc),
                getPlayer_setPlayer, if_pos himpid, himp, Option.map_some']
            · show target.inboxId ∈ insertElim g.eliminatedPlayers target.inboxId
              exact insertElim_self_mem _ _

/-- The impostor of the C4/C5 witness fixtures: one prior kill attempt at
time 1000, so a second attempt at time 5000 is still cooling down
(cooldown 20000), while an attempt at time 30000 is off cooldown. -/
def gC4imp : Player :=
  { basePlayer "mal" with role := some Role.IMPOSTOR, killAttempts := 1,
                          lastKillAttempt := some 1000 }

/-- Fixture for C4's witness: round 1's kill phase with `gC4imp`. -/
def gC4 : Game :=
  { baseGame with
    state := GameState.ROUND_1_KILL, round := 1,
    players := [gC4imp,
                { basePlayer "alice" with role := some Role.CREW },
                { basePlayer "bob" with role := some Role.CREW }],
    impostorInboxId := some "mal" }

/-- Witness for C4 at the fixture `gC4`: an attempt at time 5000, 4000ms
after the previous attempt and under the 20000ms cooldown, changes nothing
and is a rejection. -/
theorem C4_attemptKill_witness :
    (attemptKill gC4 "mal" "alice" none 5000 true).1 = gC4 ∧
    (attemptKill gC4 "mal" "alice" none 5000 true).2 ≠ KillOutcome.killSuccess ∧
    (attemptKill gC4 "mal" "alice" none 5000 true).2 ≠ KillOutcome.killFailed :=
  C4_attemptKill.1 gC4 "mal" "alice" none 5000 true gC4imp 1000
    (by decide) (by decide) (by decide) (by decide) (by decide) (by decide)

/-! ## Claim C5: attempt cap and counter resets -/

theorem killAttempts_setPlayer (g : Game) (p : Player)
    (hpres : ∀ q, g.getPlayer p.inboxId = some q → q.killAttempts = p.killAttempts)
    (i : String) :
    ((g.setPlayer p).getPlayer i).map Player.killAttempts =
      (g.getPlayer i).map Player.killAttempts := by
  rw [getPlayer_setPlayer]
  by_cases hpi : p.inboxId = i
  · rw [if_pos hpi]
    cases hq : g.getPlayer i with
    | none => rfl
    | some q =>
        have hq2 : g.getPlayer p.inboxId = some q := by rw [hpi]; exact hq
        simp only [Option.map_some', hpres q hq2]
  · rw [if_neg hpi]

theorem find?_inboxId_of_mem_nodup {l : List Player}
    (hnodup : (l.map Player.inboxId).Nodup) {p : Player} (hp : p ∈ l) :
    l.find? (fun q => q.inboxId == p.inboxId) = some p := by
  induction l with
  | nil => cases hp
  | cons a t ih =>
      rw [List.map_cons, List.nodup_cons] at hnodup
      rcases List.mem_cons.mp hp with rfl | hmem
      · rw [List.find?_cons_of_pos _ (by simp)]
      · have hne : ¬((fun q : Player => q.inboxId == p.inboxId) a = true) := by
          intro hbeq
          apply hnodup.1
          rw [eq_of_beq hbeq]
          exact List.mem_map_of_mem _ hmem
        rw [List.find?_cons_of_neg (p := fun q : Player => q.inboxId == p.inboxId) _ hne]
        exact ih hnodup.2 hmem

theorem getPlayer_of_mem_nodup {g : Game}
    (hnodup : (g.players.map Player.inboxId).Nodup) {p : Player}
    (hp : p ∈ g.players) : g.getPlayer p.inboxId = some p :=
  find?_inboxId_of_mem_nodup hnodup hp

theorem resolveKillTarget_mem {g : Game} {tid : String} {addrMatch : Option String}
    {target : Player} (h : resolveKillTarget g tid addrMatch = some target) :
    target ∈ g.players := by
  unfold resolveKillTarget at h
  cases addrMatch with
  | none =>
      replace h : g.players.find?
          (fun p => strLower p.username == strLower tid && p.isAlive) = some target := h
      exact List.mem_of_find?_eq_some h
  | some mid =>
      replace h : (match g.players.find?
            (fun p => strLower p.inboxId == strLower mid && p.isAlive) with
          | some t => some t
          | none => g.players.find?
              (fun p => strLower p.username == strLower tid && p.isAlive)) =
            some target := h
      cases hf : g.players.find?
          (fun p => strLower p.inboxId == strLower mid && p.isAlive) with
      | some t1 =>
          rw [hf] at h
          replace h : (some t1 : Option Player) = some target := h
          injection h with h2
          exact h2 ▸ List.mem_of_find?_eq_some hf
      | none =>
          rw [hf] at h
          replace h : g.players.find?
              (fun p => strLower p.username == strLower tid && p.isAlive) = some target := h
          exact List.mem_of_find?_eq_some h

theorem startRound_getPlayer {g : Game} {genTask : String → Task} {r : Nat}
    {g2 : Game} (h : startRound g genTask r = some g2) :
    ∀ i, g2.getPlayer i =
      (g.getPlayer i).map (fun p => if p.isAlive then resetForRound p else p) := by
  unfold startRound at h
  split at h
  · cases h
  · injection h with hg2
    subst hg2
    intro i
    exact getPlayer_mapPlayers g _ (fun q => by
      by_cases hq : q.isAlive = true
      · rw [if_pos hq]; rfl
      · rw [if_neg hq]) i

theorem startVotingPhaseReset_getPlayer (g : Game) (i : String) :
    (startVotingPhaseReset g).getPlayer i =
      (g.getPlayer i).map (fun p =>
        if p.isAlive then { p with voted := false, voteTarget := none } else p) := by
  unfold startVotingPhaseReset
  exact getPlayer_mapPlayers g _ (fun q => by
    by_cases hq : q.isAlive = true
    · rw [if_pos hq]
    · rw [if_neg hq]) i

theorem castVote_killAttempts (g : Game) (v t i : String) :
    ((castVote g v t).1.getPlayer i).map Player.killAttempts =
      (g.getPlayer i).map Player.killAttempts := by
  unfold castVote
  cases hv : g.getPlayer v with
  | none => rfl
  | some voter =>
      simp only []
      by_cases h1 : ¬(voter.isAlive = true)
      · rw [if_pos h1]
      · rw [if_neg h1]
        by_cases h2 : ¬(isVotingPhase g.state = true)
        · rw [if_pos h2]
        · rw [if_neg h2]
          by_cases h3 : voter.voted = true
          · rw [if_pos h3]
          · rw [if_neg h3]
            cases hf : g.players.find? (fun p => strLower p.username == strLower t) with
            | none => rfl
            | some target =>
                simp only []
                refine killAttempts_setPlayer g _ ?_ i
                intro q hq
                have hq2 : g.getPlayer v = some q := by
                  rw [← getPlayer_inboxId hv]
                  exact hq
                rw [hv] at hq2
                injection hq2 with h5
                rw [← h5]

theorem completeTask_killAttempts (g : Game) (validate : Task → String → Bool)
    (pid ans i : String) :
    ((completeTask g validate pid ans).1.getPlayer i).map Player.killAttempts =
      (g.getPlayer i).map Player.killAttempts := by
  unfold completeTask
  cases hp : g.getPlayer pid with
  | none => rfl
  | some player =>
      simp only []
      by_cases h1 : ¬(player.isAlive = true)
      · rw [if_pos h1]
      · rw [if_neg h1]
        by_cases h2 : player.role = some Role.IMPOSTOR
        · rw [if_pos h2]
        · rw [if_neg h2]
          by_cases h3 : ¬(isTaskPhase g.state = true)
          · rw [if_pos h3]
          · rw [if_neg h3]
            cases hf : g.taskAssignments.find? (fun kv => kv.1 == pid) with
            | none => rfl
            | some kv =>
                simp only []
                by_cases h4 : kv.2.completed = true
                · rw [if_pos h4]
                · rw [if_neg h4]
                  by_cases h5 : validate kv.2 ans.trim = true
                  · rw [if_pos h5]
                    refine killAttempts_setPlayer _ _ ?_ i
                    intro q hq
                    have hq2 : g.getPlayer pid = some q := by
                      rw [← getPlayer_inboxId hp]
                      exact hq
                    rw [hp] at hq2
                    injection hq2 with h6
                    rw [← h6]
                  · rw [if_neg h5]

theorem eliminatePlayer_killAttempts (g : Game) (pid i : String) :
    ((eliminatePlayer g pid).getPlayer i).map Player.killAttempts =
      (g.getPlayer i).map Player.killAttempts := by
  unfold eliminatePlayer
  cases hp : g.getPlayer pid with
  | none => rfl
  | some p =>
      simp only []
      rw [getPlayer_set_elim]
      refine killAttempts_setPlayer g _ ?_ i
      intro q hq
      have hq2 : g.getPlayer pid = some q := by
        rw [← getPlayer_inboxId hp]
        exact hq
      rw [hp] at hq2
      injection hq2 with h5
      rw [← h5]

theorem startVotingPhaseReset_killAttempts (g : Game) (i : String) :
    ((startVotingPhaseReset g).getPlayer i).map Player.killAttempts =
      (g.getPlayer i).map Player.killAttempts := by
  rw [startVotingPhaseReset_getPlayer]
  cases hgi : g.getPlayer i with
  | none => rfl
  | some p =>
      simp only [Option.map_some']
      by_cases hq : p.isAlive = true
      · rw [if_pos hq]
      · rw [if_neg hq]

theorem handleVoteButton_killAttempts (g : Game) (s t : String) (d : Bool)
    (i : String) :
    ((handleVoteButton g s t d).1.getPlayer i).map Player.killAttempts =
      (g.getPlayer i).map Player.killAttempts := by
  unfold handleVoteButton
  by_cases hd : d = true
  · rw [if_pos hd]
  · rw [if_neg hd]
    cases ht : g.getPlayer t with
    | none => rfl
    | some tp =>
        simp only []
        cases hv : g.getPlayer s with
        | none => rfl
        | some voter =>
            simp only []
            by_cases h1 : ¬(voter.isAlive = true)
            · rw [if_pos h1]
            · rw [if_neg h1]
              by_cases h2 : ¬(isVotingPhase g.state = true)
              · rw [if_pos h2]
              · rw [if_neg h2]
                refine killAttempts_setPlayer g _ ?_ i
                intro q hq
                have hq2 : g.getPlayer s = some q := by
                  rw [← getPlayer_inboxId hv]
                  exact hq
                rw [hv] at hq2
                injection hq2 with h5
                rw [← h5]

/-- Case analysis of `attemptKill`: either it is a rejection and the session
is unchanged, or it is a qualifying attempt on a resolved non-self target by
the registered impostor, with the session mutated as the code does. -/
theorem attemptKill_cases (g : Game) (impId tid : String)
    (addrMatch : Option String) (now : Nat) (roll : Bool) :
    (attemptKill g impId tid addrMatch now roll).1 = g ∨
    (∃ imp target, g.getPlayer impId = some imp ∧
      resolveKillTarget g tid addrMatch = some target ∧
      ¬(target.inboxId = impId) ∧
      (attemptKill g impId tid addrMatch now roll).1 =
        (if roll then
          { (g.setPlayer { imp with killAttempts := imp.killAttempts + 1,
                                    lastKillAttempt := some now }).setPlayer
              { target with isAlive := false } with
            eliminatedPlayers := insertElim g.eliminatedPlayers target.inboxId }
         else
          g.setPlayer { imp with killAttempts := imp.killAttempts + 1,
                                 lastKillAttempt := some now })) := by
  unfold attemptKill
  cases himp : g.getPlayer impId with
  | none => exact Or.inl rfl
  | some imp =>
      simp only []
      by_cases h1 : ¬(imp.isAlive = true ∧ imp.role = some Role.IMPOSTOR)
      · rw [if_pos h1]
        exact Or.inl rfl
      · rw [if_neg h1]
        by_cases h2 : ¬(isKillPhase g.state = true)
        · rw [if_pos h2]
          exact Or.inl rfl
        · rw [if_neg h2]
          cases hres : resolveKillTarget g tid addrMatch with
          | none => exact Or.inl rfl
          | some target =>
              simp only []
              by_cases hself : target.inboxId = impId
              · rw [if_pos hself]
                exact Or.inl rfl
              · rw [if_neg hself]
                cases hlk : imp.lastKillAttempt with
                | none =>
                    simp only []
                    rw [if_neg Bool.false_ne_true]
                    by_cases hcap : imp.killAttempts ≥ g.maxKillAttempts
                    · rw [if_pos hcap]
                      exact Or.inl rfl
                    · rw [if_neg hcap]
                      refine Or.inr ⟨imp, target, rfl, rfl, hself, ?_⟩
                      cases roll with
                      | false => rfl
                      | true => rfl
                | some t0 =>
                    simp only []
                    by_cases hdec : decide (now - t0 < g.killCooldown) = true
                    · rw [if_pos hdec]
                      exact Or.inl rfl
                    · rw [if_neg hdec]
                      by_cases hcap : imp.killAttempts ≥ g.maxKillAttempts
                      · rw [if_pos hcap]
                        exact Or.inl rfl
                      · rw [if_neg hcap]
                        refine Or.inr ⟨imp, target, rfl, rfl, hself, ?_⟩
                        cases roll with
                        | false => rfl
                        | true => rfl

theorem attemptKill_killAttempts_mono (g : Game) (impId tid : String)
    (addrMatch : Option String) (now : Nat) (roll : Bool) (i : String) (n : Nat)
    (hnodup : (g.players.map Player.inboxId).Nodup)
    (hn : (g.getPlayer i).map Player.killAttempts = some n) :
    ∃ m, ((attemptKill g impId tid addrMatch now roll).1.getPlayer i).map
      Player.killAttempts = some m ∧ n ≤ m := by
  rcases attemptKill_cases g impId tid addrMatch now roll with hcase |
    ⟨imp, target, himp, hres, hself, hcase⟩
  · rw [hcase]
    exact ⟨n, hn, Nat.le_refl n⟩
  · have hiid : imp.inboxId = impId := getPlayer_inboxId himp
    have htid : g.getPlayer target.inboxId = some target :=
      getPlayer_of_mem_nodup hnodup (resolveKillTarget_mem hres)
    rw [hcase]
    cases roll with
    | false =>
        rw [if_neg Bool.false_ne_true, getPlayer_setPlayer]
        by_cases him2 : ({ imp with killAttempts := imp.killAttempts + 1,
                                    lastKillAttempt := some now } : Player).inboxId = i
        · cases hgi : g.getPlayer i with
          | none =>
              rw [hgi] at hn
              exact absurd hn (by simp)
          | some p0 =>
              rw [if_pos him2]
              rw [hgi] at hn
              simp only [Option.map_some'] at hn ⊢
              injection hn with hn2
              have hp0 : p0 = imp := by
                have hieq : i = impId := him2.symm.trans hiid
                rw [hieq, himp] at hgi
                injection hgi with h3
                exact h3.symm
              refine ⟨imp.killAttempts + 1, rfl, ?_⟩
              rw [← hn2, hp0]
              exact Nat.le_succ _
        · rw [if_neg him2]
          exact ⟨n, hn, Nat.le_refl n⟩
    | true =>
        rw [if_pos rfl, getPlayer_set_elim, getPlayer_setPlayer]
        by_cases ht2 : ({ target with isAlive := false } : Player).inboxId = i
        · rw [if_pos ht2, getPlayer_setPlayer]
          by_cases him2 : ({ imp with killAttempts := imp.killAttempts + 1,
                                      lastKillAttempt := some now } : Player).inboxId = i
          · exact absurd ((ht2 : target.inboxId = i).trans
              ((him2 : imp.inboxId = i).symm.trans hiid)) hself
          · rw [if_neg him2]
            have hgi : g.getPlayer i = some target := by
              rw [← (ht2 : target.inboxId = i)]
              exact htid
            rw [hgi]
            rw [hgi] at hn
            simp only [Option.map_some'] at hn ⊢
            injection hn with hn2
            exact ⟨target.killAttempts, rfl, hn2.symm.le⟩
        · rw [if_neg ht2, getPlayer_setPlayer]
          by_cases him2 : ({ imp with killAttempts := imp.killAttempts + 1,
                                      lastKillAttempt := some now } : Player).inboxId = i
          · cases hgi : g.getPlayer i with
            | none =>
                rw [hgi] at hn
                exact absurd hn (by simp)
            | some p0 =>
                rw [if_pos him2]
                rw [hgi] at hn
                simp only [Option.map_some'] at hn ⊢
                injection hn with hn2
                have hp0 : p0 = imp := by
                  have hieq : i = impId := him2.symm.trans hiid
                  rw [hieq, himp] at hgi
                  injection hgi with h3
                  exact h3.symm
                refine ⟨imp.killAttempts + 1, rfl, ?_⟩
                rw [← hn2, hp0]
                exact Nat.le_succ _
          · rw [if_neg him2]
            exact ⟨n, hn, Nat.le_refl n⟩

/-- C5: once the adversary's `killAttempts` has reached `maxKillAttempts`,
a further attempt in the same round is rejected with the max-attempts
message even though the cooldown has elapsed, leaving the session unchanged;
`killAttempts` is never decreased — in particular never reset to 0 — by
`castVote`, `completeTask`, `eliminatePlayer`, the voting-phase entry reset,
the vote-button handler, or `attemptKill` itself (Nodup encodes the JS map's
unique roster keys); and `startRound` is the operation that resets it,
together with `lastKillAttempt`, `voted` and `voteTarget`, for every living
player. -/
theorem C5_cap_and_reset :
    (∀ (g : Game) (impId tid : String) (addrMatch : Option String) (now : Nat)
        (roll : Bool) (imp target : Player),
      g.getPlayer impId = some imp →
      imp.isAlive = true → imp.role = some Role.IMPOSTOR →
      isKillPhase g.state = true →
      resolveKillTarget g tid addrMatch = some target →
      ¬(target.inboxId = impId) →
      (∀ t0, imp.lastKillAttempt = some t0 → g.killCooldown ≤ now - t0) →
      g.maxKillAttempts ≤ imp.killAttempts →
      attemptKill g impId tid addrMatch now roll = (g, KillOutcome.maxAttempts)) ∧
    (∀ g v t i, ((castVote g v t).1.getPlayer i).map Player.killAttempts =
      (g.getPlayer i).map Player.killAttempts) ∧
    (∀ g validate pid ans i,
      ((completeTask g validate pid ans).1.getPlayer i).map Player.killAttempts =
        (g.getPlayer i).map Player.killAttempts) ∧
    (∀ g pid i, ((eliminatePlayer g pid).getPlayer i).map Player.killAttempts =
      (g.getPlayer i).map Player.killAttempts) ∧
    (∀ g i, ((startVotingPhaseReset g).getPlayer i).map Player.killAttempts =
      (g.getPlayer i).map Player.killAttempts) ∧
    (∀ g s t d i, ((handleVoteButton g s t d).1.getPlayer i).map Player.killAttempts =
      (g.getPlayer i).map Player.killAttempts) ∧
    (∀ (g : Game) (impId tid : String) (addrMatch : Option String) (now : Nat)
        (roll : Bool) (i : String) (n : Nat),
      (g.players.map Player.inboxId).Nodup →
      (g.getPlayer i).map Player.killAttempts = some n →
      ∃ m, ((attemptKill g impId tid addrMatch now roll).1.getPlayer i).map
        Player.killAttempts = some m ∧ n ≤ m) ∧
    (∀ (g : Game) (genTask : String → Task) (r : Nat) (g2 : Game),
      startRound g genTask r = some g2 →
      ∀ i, g2.getPlayer i =
        (g.getPlayer i).map (fun p => if p.isAlive then resetForRound p else p)) := by
  refine ⟨?_, castVote_killAttempts, completeTask_killAttempts,
    eliminatePlayer_killAttempts, startVotingPhaseReset_killAttempts,
    handleVoteButton_killAttempts, attemptKill_killAttempts_mono,
    fun g genTask r g2 h => startRound_getPlayer h⟩
  intro g impId tid addrMatch now roll imp target himp halive hrole hphase hres
    hself hcool hge
  have h1 : ¬¬(imp.isAlive = true ∧ imp.role = some Role.IMPOSTOR) :=
    not_not_intro ⟨halive, hrole⟩
  have h2 : ¬¬(isKillPhase g.state = true) := not_not_intro hphase
  have hge2 : imp.killAttempts ≥ g.maxKillAttempts := hge
  cases hlk : imp.lastKillAttempt with
  | none =>
      unfold attemptKill
      simp only [himp, hres, hlk]
      rw [if_neg h1, if_neg h2, if_neg hself, if_neg Bool.false_ne_true, if_pos hge2]
  | some t0 =>
      have hdec : ¬(decide (now - t0 < g.killCooldown) = true) := by
        simpa using Nat.not_lt.mpr (hcool t0 hlk)
      unfold attemptKill
      simp only [himp, hres, hlk]
      rw [if_neg h1, if_neg h2, if_neg hself, if_neg hdec, if_pos hge2]

/-- The at-cap impostor of the C5 witness fixture: `killAttempts` already at
the maximum of 2, last attempt long off cooldown by time 30000. -/
def gC5imp : Player :=
  { basePlayer "mal" with role := some Role.IMPOSTOR, killAttempts := 2,
                          lastKillAttempt := some 1000 }

/-- Fixture for C5's witness: a kill phase with the at-cap impostor. -/
def gC5 : Game :=
  { baseGame with
    state := GameState.ROUND_1_KILL, round := 1,
    players := [gC5imp, { basePlayer "alice" with role := some Role.CREW }],
    impostorInboxId := some "mal" }

/-- Witness for C5's cap conjunct at the fixture `gC5`: an off-cooldown
attempt at time 30000 against a valid target is rejected at the cap. -/
theorem C5_cap_and_reset_witness :
    attemptKill gC5 "mal" "alice" none 30000 true = (gC5, KillOutcome.maxAttempts) :=
  C5_cap_and_reset.1 gC5 "mal" "alice" none 30000 true gC5imp
    { basePlayer "alice" with role := some Role.CREW }
    (by decide) (by decide) (by decide) (by decide) (by decide) (by decide)
    (by intro t0 ht; simp [gC5imp, basePlayer] at ht; simp [gC5, baseGame]; omega)
    (by decide)

/-! ## Claim C7: amended reset discipline -/

/-- A pair of before/after player states in which no per-round field has
been reset: a set `voted` flag stays set, a recorded `voteTarget` stays
recorded, and `killAttempts` does not decrease. -/
def noFieldReset (p p2 : Player) : Prop :=
  (p.voted = true → p2.voted = true) ∧
  (p.voteTarget.isSome = true → p2.voteTarget.isSome = true) ∧
  p.killAttempts ≤ p2.killAttempts

theorem noFieldReset_rfl (p : Player) : noFieldReset p p :=
  ⟨id, id, Nat.le_refl _⟩

theorem noFieldReset_trans {a b c : Player} (h1 : noFieldReset a b)
    (h2 : noFieldReset b c) : noFieldReset a c :=
  ⟨fun h => h2.1 (h1.1 h), fun h => h2.2.1 (h1.2.1 h), Nat.le_trans h1.2.2 h2.2.2⟩

theorem noFieldReset_of_same {g : Game} {i : String} {p p2 : Player}
    (hp : g.getPlayer i = some p) (hp2 : g.getPlayer i = some p2) :
    noFieldReset p p2 := by
  rw [hp] at hp2
  injection hp2 with h
  rw [h]
  exact noFieldReset_rfl p2

theorem noFieldReset_setPlayer {g : Game} {key : String} {p0 p3 : Player}
    {i : String} {p p2 : Player}
    (hfound : g.getPlayer key = some p0)
    (hp : g.getPlayer i = some p)
    (hp2 : (g.setPlayer p3).getPlayer i = some p2)
    (hpres : noFieldReset p0 p3)
    (hid : p3.inboxId = p0.inboxId) : noFieldReset p p2 := by
  rw [getPlayer_setPlayer] at hp2
  by_cases hpi : p3.inboxId = i
  · rw [if_pos hpi, hp, Option.map_some'] at hp2
    injection hp2 with h2
    have hik : i = key := by
      rw [← hpi, hid]
      exact getPlayer_inboxId hfound
    rw [hik, hfound] at hp
    injection hp with h3
    rw [← h2, ← h3]
    exact hpres
  · rw [if_neg hpi] at hp2
    exact noFieldReset_of_same hp hp2

/-- Case analysis of `castVote`: a silent rejection, or the found voter's
vote recorded onto a registered username match. -/
theorem castVote_cases (g : Game) (v t : String) :
    (castVote g v t).1 = g ∨
    (∃ voter target, g.getPlayer v = some voter ∧
      g.players.find? (fun p => strLower p.username == strLower t) = some target ∧
      (castVote g v t).1 =
        g.setPlayer { voter with voted := true, voteTarget := some target.inboxId }) := by
  unfold castVote
  cases hv : g.getPlayer v with
  | none => exact Or.inl rfl
  | some voter =>
      simp only []
      by_cases h1 : ¬(voter.isAlive = true)
      · rw [if_pos h1]
        exact Or.inl rfl
      · rw [if_neg h1]
        by_cases h2 : ¬(isVotingPhase g.state = true)
        · rw [if_pos h2]
          exact Or.inl rfl
        · rw [if_neg h2]
          by_cases h3 : voter.voted = true
          · rw [if_pos h3]
            exact Or.inl rfl
          · rw [if_neg h3]
            cases hf : g.players.find? (fun p => strLower p.username == strLower t) with
            | none => exact Or.inl rfl
            | some target => exact Or.inr ⟨voter, target, rfl, rfl, rfl⟩

/-- Case analysis of the vote-button mutation: a silent rejection, or the
found voter's vote overwritten with the clicked target's inboxId. -/
theorem handleVoteButton_cases (g : Game) (s t : String) (d : Bool) :
    (handleVoteButton g s t d).1 = g ∨
    (∃ voter, g.getPlayer s = some voter ∧
      (handleVoteButton g s t d).1 =
        g.setPlayer { voter with voted := true, voteTarget := some t }) := by
  unfold handleVoteButton
  by_cases hd : d = true
  · rw [if_pos hd]
    exact Or.inl rfl
  · rw [if_neg hd]
    cases ht : g.getPlayer t with
    | none => exact Or.inl rfl
    | some tp =>
        simp only []
        cases hv : g.getPlayer s with
        | none => exact Or.inl rfl
        | some voter =>
            simp only []
            by_cases h1 : ¬(voter.isAlive = true)
            · rw [if_pos h1]
              exact Or.inl rfl
            · rw [if_neg h1]
              by_cases h2 : ¬(isVotingPhase g.state = true)
              · rw [if_pos h2]
                exact Or.inl rfl
              · rw [if_neg h2]
                exact Or.inr ⟨voter, rfl, rfl⟩

/-- Case analysis of `completeTask`: a silent rejection, or the found
player's completed-task count bumped over an updated task map. -/
theorem completeTask_cases (g : Game) (validate : Task → String → Bool)
    (pid ans : String) :
    (completeTask g validate pid ans).1 = g ∨
    (∃ player kv, g.getPlayer pid = some player ∧
      g.taskAssignments.find? (fun kv => kv.1 == pid) = some kv ∧
      (completeTask g validate pid ans).1 =
        ({ g with taskAssignments := setAssoc g.taskAssignments pid { kv.2 with completed := true } } : Game).setPlayer
          { player with completedTasks := player.completedTasks + 1 }) := by
  unfold completeTask
  cases hp : g.getPlayer pid with
  | none => exact Or.inl rfl
  | some player =>
      simp only []
      by_cases h1 : ¬(player.isAlive = true)
      · rw [if_pos h1]
        exact Or.inl rfl
      · rw [if_neg h1]
        by_cases h2 : player.role = some Role.IMPOSTOR
        · rw [if_pos h2]
          exact Or.inl rfl
        · rw [if_neg h2]
          by_cases h3 : ¬(isTaskPhase g.state = true)
          · rw [if_pos h3]
            exact Or.inl rfl
          · rw [if_neg h3]
            cases hf : g.taskAssignments.find? (fun kv => kv.1 == pid) with
            | none => exact Or.inl rfl
            | some kv =>
                simp only []
                by_cases h4 : kv.2.completed = true
                · rw [if_pos h4]
                  exact Or.inl rfl
                · rw [if_neg h4]
                  by_cases h5 : validate kv.2 ans.trim = true
                  · rw [if_pos h5]
                    exact Or.inr ⟨player, kv, rfl, rfl, rfl⟩
                  · rw [if_neg h5]
                    exact Or.inl rfl

/-- Case analysis of `eliminatePlayer`: no-op on an unknown id, or the found
player marked not alive and recorded in the elimination set. -/
theorem eliminatePlayer_cases (g : Game) (pid : String) :
    eliminatePlayer g pid = g ∨
    (∃ p0, g.getPlayer pid = some p0 ∧
      eliminatePlayer g pid =
        { g.setPlayer { p0 with isAlive := false } with
          eliminatedPlayers :=
            insertElim (g.setPlayer { p0 with isAlive := false }).eliminatedPlayers
              pid }) := by
  unfold eliminatePlayer
  cases hp : g.getPlayer pid with
  | none => exact Or.inl rfl
  | some p0 => exact Or.inr ⟨p0, rfl, rfl⟩

theorem castVote_noFieldReset (g : Game) (v t i : String) (p p2 : Player)
    (hp : g.getPlayer i = some p)
    (hp2 : (castVote g v t).1.getPlayer i = some p2) : noFieldReset p p2 := by
  rcases castVote_cases g v t with hc | ⟨voter, target, hv, hf, hc⟩
  · rw [hc] at hp2
    exact noFieldReset_of_same hp hp2
  · rw [hc] at hp2
    exact noFieldReset_setPlayer hv hp hp2
      ⟨fun _ => rfl, fun _ => rfl, Nat.le_refl _⟩ rfl

theorem handleVoteButton_noFieldReset (g : Game) (s t : String) (d : Bool)
    (i : String) (p p2 : Player)
    (hp : g.getPlayer i = some p)
    (hp2 : (handleVoteButton g s t d).1.getPlayer i = some p2) :
    noFieldReset p p2 := by
  rcases handleVoteButton_cases g s t d with hc | ⟨voter, hv, hc⟩
  · rw [hc] at hp2
    exact noFieldReset_of_same hp hp2
  · rw [hc] at hp2
    exact noFieldReset_setPlayer hv hp hp2
      ⟨fun _ => rfl, fun _ => rfl, Nat.le_refl _⟩ rfl

theorem completeTask_noFieldReset (g : Game) (validate : Task → String → Bool)
    (pid ans i : String) (p p2 : Player)
    (hp : g.getPlayer i = some p)
    (hp2 : (completeTask g validate pid ans).1.getPlayer i = some p2) :
    noFieldReset p p2 := by
  rcases completeTask_cases g validate pid ans with hc | ⟨player, kv, hpid, hf, hc⟩
  · rw [hc] at hp2
    exact noFieldReset_of_same hp hp2
  · rw [hc] at hp2
    exact noFieldReset_setPlayer hpid hp hp2
      ⟨fun h => h, fun h => h, Nat.le_refl _⟩ rfl

theorem eliminatePlayer_noFieldReset (g : Game) (pid i : String) (p p2 : Player)
    (hp : g.getPlayer i = some p)
    (hp2 : (eliminatePlayer g pid).getPlayer i = some p2) : noFieldReset p p2 := by
  rcases eliminatePlayer_cases g pid with hc | ⟨p0, hpid, hc⟩
  · rw [hc] at hp2
    exact noFieldReset_of_same hp hp2
  · rw [hc, getPlayer_set_elim] at hp2
    exact noFieldReset_setPlayer hpid hp hp2
      ⟨fun h => h, fun h => h, Nat.le_refl _⟩ rfl

theorem attemptKill_noFieldReset (g : Game) (impId tid : String)
    (addrMatch : Option String) (now : Nat) (roll : Bool) (i : String)
    (p p2 : Player)
    (hnodup : (g.players.map Player.inboxId).Nodup)
    (hp : g.getPlayer i = some p)
    (hp2 : (attemptKill g impId tid addrMatch now roll).1.getPlayer i = some p2) :
    noFieldReset p p2 := by
  rcases attemptKill_cases g impId tid addrMatch now roll with hc |
    ⟨imp, target, himp, hres, hself, hc⟩
  · rw [hc] at hp2
    exact noFieldReset_of_same hp hp2
  · have hiid : imp.inboxId = impId := getPlayer_inboxId himp
    have htid : g.getPlayer target.inboxId = some target :=
      getPlayer_of_mem_nodup hnodup (resolveKillTarget_mem hres)
    rw [hc] at hp2
    cases roll with
    | false =>
        rw [if_neg Bool.false_ne_true] at hp2
        exact noFieldReset_setPlayer himp hp hp2
          ⟨fun h => h, fun h => h, Nat.le_succ _⟩ rfl
    | true =>
        rw [if_pos rfl, getPlayer_set_elim] at hp2
        obtain ⟨pm, hpm⟩ : ∃ pm,
            (g.setPlayer { imp with killAttempts := imp.killAttempts + 1,
                                    lastKillAttempt := some now }).getPlayer i =
              some pm := by
          rw [getPlayer_setPlayer]
          by_cases him2 : ({ imp with killAttempts := imp.killAttempts + 1,
                                      lastKillAttempt := some now } : Player).inboxId = i
          · rw [if_pos him2, hp, Option.map_some']
            exact ⟨_, rfl⟩
          · rw [if_neg him2]
            exact ⟨p, hp⟩
        have step1 : noFieldReset p pm :=
          noFieldReset_setPlayer himp hp hpm
            ⟨fun h => h, fun h => h, Nat.le_succ _⟩ rfl
        have hfound2 : (g.setPlayer { imp with killAttempts := imp.killAttempts + 1,
                                               lastKillAttempt := some now }).getPlayer
            target.inboxId = some target := by
          rw [getPlayer_setPlayer]
          by_cases hti : ({ imp with killAttempts := imp.killAttempts + 1,
                                     lastKillAttempt := some now } : Player).inboxId =
              target.inboxId
          · exact absurd (((hti : imp.inboxId = target.inboxId).symm).trans hiid) hself
          · rw [if_neg hti]
            exact htid
        have step2 : noFieldReset pm p2 :=
          noFieldReset_setPlayer hfound2 hpm hp2
            ⟨fun h => h, fun h => h, Nat.le_refl _⟩ rfl
        exact noFieldReset_trans step1 step2

/-- C7 (amended): the per-round fields are reset at `startRound` for every
living player; in addition, voting-phase entry (`startVotingPhase`) resets
`voted` and `voteTarget` — but not `killAttempts` — for every living player,
a second reset within the round that can erase a vote already cast in the
voting phase; no other mutating operation (`castVote`, the vote-button
handler, `completeTask`, `eliminatePlayer`, `attemptKill`) resets any of the
three fields: a set `voted` stays set, a recorded `voteTarget` stays
recorded, and `killAttempts` never decreases. -/
theorem C7_amended :
    (∀ (g : Game) (genTask : String → Task) (r : Nat) (g2 : Game),
      startRound g genTask r = some g2 →
      ∀ i, g2.getPlayer i =
        (g.getPlayer i).map (fun p => if p.isAlive then resetForRound p else p)) ∧
    (∀ (g : Game) (i : String), (startVotingPhaseReset g).getPlayer i =
      (g.getPlayer i).map (fun p =>
        if p.isAlive then { p with voted := false, voteTarget := none } else p)) ∧
    (∀ g i, ((startVotingPhaseReset g).getPlayer i).map Player.killAttempts =
      (g.getPlayer i).map Player.killAttempts) ∧
    (∀ g v t i p p2, g.getPlayer i = some p →
      (castVote g v t).1.getPlayer i = some p2 → noFieldReset p p2) ∧
    (∀ g s t d i p p2, g.getPlayer i = some p →
      (handleVoteButton g s t d).1.getPlayer i = some p2 → noFieldReset p p2) ∧
    (∀ g validate pid ans i p p2, g.getPlayer i = some p →
      (completeTask g validate pid ans).1.getPlayer i = some p2 →
        noFieldReset p p2) ∧
    (∀ g pid i p p2, g.getPlayer i = some p →
      (eliminatePlayer g pid).getPlayer i = some p2 → noFieldReset p p2) ∧
    (∀ (g : Game) (impId tid : String) (addrMatch : Option String) (now : Nat)
        (roll : Bool) (i : String) (p p2 : Player),
      (g.players.map Player.inboxId).Nodup →
      g.getPlayer i = some p →
      (attemptKill g impId tid addrMatch now roll).1.getPlayer i = some p2 →
      noFieldReset p p2) :=
  ⟨fun g genTask r g2 h => startRound_getPlayer h,
   startVotingPhaseReset_getPlayer,
   startVotingPhaseReset_killAttempts,
   castVote_noFieldReset,
   handleVoteButton_noFieldReset,
   completeTask_noFieldReset,
   eliminatePlayer_noFieldReset,
   attemptKill_noFieldReset⟩

/-- Witness for the amended C7: `startRound` on the `gC7` fixture resets the
living player `alice`. -/
theorem C7_amended_witness :
    ∃ g2, startRound gC7 defaultGen 1 = some g2 ∧
      g2.getPlayer "alice" = (gC7.getPlayer "alice").map
        (fun p => if p.isAlive then resetForRound p else p) := by
  have hs : (startRound gC7 defaultGen 1).isSome = true := by decide
  exact ⟨(startRound gC7 defaultGen 1).get hs, (Option.some_get hs).symm,
    C7_amended.1 gC7 defaultGen 1 _ (Option.some_get hs).symm "alice"⟩

/-! ## Claim C6: lobby overflow eviction -/

/-- The fresh player record `addPlayer` admits (gameManager lines 151-161). -/
def newLobbyPlayer (inboxId username : String) : Player :=
  { inboxId := inboxId, username := username, role := none, isAlive := true,
    completedTasks := 0, killAttempts := 0, lastKillAttempt := none,
    voted := false, voteTarget := none }

/-- C6: when `addPlayer` is called with a not-yet-present id while the
roster already holds `MAX_PLAYERS` players, the state permits joining and
the join deadline has not passed, it evicts the most recently added player
whose inboxId is not the hosting agent's (case-insensitively) — every
later-joined player is the agent itself — admits the newcomer at the end of
the roster, and returns the evicted player; the hosting agent is never
evicted. `Nodup` encodes the JS map's unique roster keys. -/
theorem C6_addPlayer (g : Game) (agentId : String) (now : Nat)
    (newId newName : String)
    (hstate : g.state = GameState.LOBBY_CREATED ∨
      g.state = GameState.WAITING_FOR_PLAYERS)
    (hfull : g.players.length = MAX_PLAYERS)
    (hnew : ∀ p ∈ g.players, ¬(p.inboxId = newId))
    (hdl : ∀ d, g.joinDeadline = some d → now ≤ d)
    (hnodup : (g.players.map Player.inboxId).Nodup)
    (hsome : ∃ p ∈ g.players, ¬(strLower p.inboxId = strLower agentId)) :
    ∃ ev A B,
      g.players = A ++ ev :: B ∧
      (∀ q ∈ B, strLower q.inboxId = strLower agentId) ∧
      ¬(strLower ev.inboxId = strLower agentId) ∧
      (addPlayer g agentId now newId newName).2.success = true ∧
      (addPlayer g agentId now newId newName).2.removedPlayer = some ev ∧
      (addPlayer g agentId now newId newName).1.players =
        (A ++ B) ++ [newLobbyPlayer newId newName] := by
  have hfindsome : (g.players.reverse.find?
      (fun p => !(strLower p.inboxId == strLower agentId))).isSome = true := by
    rw [List.find?_isSome]
    obtain ⟨p, hp, hne⟩ := hsome
    refine ⟨p, List.mem_reverse.mpr hp, ?_⟩
    simp [hne]
  obtain ⟨ev, hev⟩ := Option.isSome_iff_exists.mp hfindsome
  have hevne : ¬(strLower ev.inboxId = strLower agentId) := by
    have := List.find?_some hev
    simpa using this
  obtain ⟨C, D, hrev, hC⟩ := find?_decomp _ _ ev hev
  have hsplit : g.players = D.reverse ++ ev :: C.reverse := by
    have h1 : g.players.reverse.reverse = (C ++ ev :: D).reverse := by rw [hrev]
    rw [List.reverse_reverse] at h1
    rw [h1]
    simp [List.reverse_append, List.reverse_cons, List.append_assoc]
  have hBagent : ∀ q ∈ C.reverse, strLower q.inboxId = strLower agentId := by
    intro q hq
    have hfalse := hC q (List.mem_reverse.mp hq)
    simpa using hfalse
  have hlast : lastNonAgent g.players agentId = some ev := hev
  rw [hsplit] at hnodup
  rw [List.map_append, List.map_cons] at hnodup
  have hnotin : ev.inboxId ∉ (D.reverse.map Player.inboxId ++
      C.reverse.map Player.inboxId) :=
    (List.nodup_cons.mp (List.nodup_middle.mp hnodup)).1
  have hAne : ∀ q ∈ D.reverse, ¬(q.inboxId = ev.inboxId) := by
    intro q hq heq
    exact hnotin (List.mem_append_left _ (heq ▸ List.mem_map_of_mem Player.inboxId hq))
  have hBne : ∀ q ∈ C.reverse, ¬(q.inboxId = ev.inboxId) := by
    intro q hq heq
    exact hnotin (List.mem_append_right _ (heq ▸ List.mem_map_of_mem Player.inboxId hq))
  have hfilter : g.players.filter (fun p => ¬(p.inboxId == ev.inboxId)) =
      D.reverse ++ C.reverse := by
    rw [hsplit, List.filter_append, List.filter_cons_of_neg (by simp)]
    rw [List.filter_eq_self.mpr, List.filter_eq_self.mpr]
    · intro q hq
      simp [hBne q hq]
    · intro q hq
      simp [hAne q hq]
  have hc1 : ¬¬(g.state = GameState.LOBBY_CREATED ∨
      g.state = GameState.WAITING_FOR_PLAYERS) := not_not_intro hstate
  have hnone : g.getPlayer newId = none := by
    unfold Game.getPlayer
    rw [List.find?_eq_none]
    intro x hx
    simp [hnew x hx]
  have hsize : g.players.length ≥ MAX_PLAYERS := Nat.le_of_eq hfull.symm
  have hsuf : addPlayer g agentId now newId newName =
      ({ g with
         players := (g.players.filter (fun p => ¬(p.inboxId == ev.inboxId))) ++ [newLobbyPlayer newId newName],
         state := GameState.WAITING_FOR_PLAYERS },
       ⟨true, some ev⟩) := by
    unfold addPlayer
    rw [if_neg hc1, hnone]
    rw [if_neg (by simp : ¬((none : Option Player).isSome = true))]
    cases hjd : g.joinDeadline with
    | none =>
        simp only []
        rw [if_neg Bool.false_ne_true, if_pos hsize]
        simp only [hlast]
        rfl
    | some d =>
        simp only []
        have hnd : ¬(decide (now > d) = true) := by
          simpa using Nat.not_lt.mpr (hdl d hjd)
        rw [if_neg hnd, if_pos hsize]
        simp only [hlast]
        rfl
  refine ⟨ev, D.reverse, C.reverse, hsplit, hBagent, hevne, ?_, ?_, ?_⟩
  · rw [hsuf]
  · rw [hsuf]
  · rw [hsuf]
    show (g.players.filter (fun p => ¬(p.inboxId == ev.inboxId))) ++ _ = _
    rw [hfilter]

/-- Fixture for C6's witness: six joined players, none of them the hosting
agent, join window still open at time 50. -/
def gC6 : Game :=
  { baseGame with
    state := GameState.WAITING_FOR_PLAYERS,
    joinDeadline := some 100,
    players := [basePlayer "alice", basePlayer "bob", basePlayer "carol",
                basePlayer "dave", basePlayer "erin", basePlayer "frank"] }

/-- Witness for C6 at the fixture `gC6`: a seventh join by `gina` succeeds,
evicting the most-recently-joined non-agent player. -/
theorem C6_addPlayer_witness :
    ∃ ev A B,
      gC6.players = A ++ ev :: B ∧
      (∀ q ∈ B, strLower q.inboxId = strLower "agent") ∧
      ¬(strLower ev.inboxId = strLower "agent") ∧
      (addPlayer gC6 "agent" 50 "gina" "gina").2.success = true ∧
      (addPlayer gC6 "agent" 50 "gina" "gina").2.removedPlayer = some ev ∧
      (addPlayer gC6 "agent" 50 "gina" "gina").1.players =
        (A ++ B) ++ [newLobbyPlayer "gina" "gina"] :=
  C6_addPlayer gC6 "agent" 50 "gina" "gina" (by decide) (by decide) (by decide)
    (by intro d h; simp [gC6] at h; omega) (by decide) (by decide)

end MafiaGame
